import Mathlib

/-!
Verification of the incremental curation pipeline (comment_fetcher.py,
github_client.py, llm_evaluator.py, sheets_sync.py) against its
natural-language specification.  Python strings are modelled as Lean
strings, with the string primitives the code uses (substring test,
lower-casing, strip, slicing, lexicographic comparison) implemented over
the underlying character lists so that they evaluate inside the kernel.
Instants (datetime values) are modelled as natural numbers; the Python
comparison operators on datetimes map to the Nat order.
-/

namespace LiveFeed

/-- Python `needle in hay` on character lists: `needle` occurs contiguously. -/
def isSubChars (needle : List Char) : List Char → Bool
  | [] => needle.isEmpty
  | c :: rest => needle.isPrefixOf (c :: rest) || isSubChars needle rest

/-- Python `needle in hay` on strings. -/
def pyIn (needle hay : String) : Bool := isSubChars needle.data hay.data

/-- Python `str.lower()`, for the ASCII range this code base exercises. -/
def pyLower (s : String) : String := ⟨s.data.map Char.toLower⟩

/-- Python slice `s[:n]`. -/
def pyTake (n : Nat) (s : String) : String := ⟨s.data.take n⟩

/-- Python `str.strip()` (whitespace from both ends). -/
def pyStrip (s : String) : String :=
  ⟨((s.data.dropWhile Char.isWhitespace).reverse.dropWhile Char.isWhitespace).reverse⟩

/-- Python `s.startswith(p)`. -/
def pyStartsWith (s p : String) : Bool := p.data.isPrefixOf s.data

/-- Strict lexicographic comparison of character lists by code point,
Python `<` on `str`. -/
def charsLt : List Char → List Char → Bool
  | _, [] => false
  | [], _ :: _ => true
  | a :: xs, b :: ys =>
    if a.toNat < b.toNat then true
    else if b.toNat < a.toNat then false
    else charsLt xs ys

/-- Python `a < b` on strings. -/
def pyStrLt (a b : String) : Bool := charsLt a.data b.data

/-- Numeric value of a digit list (most significant first). -/
def digitsVal (l : List Char) : Nat :=
  l.foldl (fun acc c => acc * 10 + (c.toNat - '0'.toNat)) 0

/-- Python `int(s)` as an `Option`: strips whitespace, accepts an optional
sign followed by at least one digit; every other input (`ValueError`) is
`none`. -/
def pyInt? (s : String) : Option Int :=
  match pyStrip s |>.data with
  | [] => none
  | '-' :: ds => if ds ≠ [] ∧ ds.all Char.isDigit then some (-(digitsVal ds : Int)) else none
  | '+' :: ds => if ds ≠ [] ∧ ds.all Char.isDigit then some (digitsVal ds : Int) else none
  | ds => if ds.all Char.isDigit then some (digitsVal ds : Int) else none

/-- Lookup in an insertion-ordered association list (Python `dict.get`). -/
def dget {κ α : Type} [DecidableEq κ] (k : κ) : List (κ × α) → Option α
  | [] => none
  | (k0, v) :: rest => if k0 = k then some v else dget k rest

/-- Update-or-append on an insertion-ordered association list
(Python `d[k] = v`): an existing key keeps its position, a new key is
appended. -/
def dset {κ α : Type} [DecidableEq κ] (k : κ) (v : α) : List (κ × α) → List (κ × α)
  | [] => [(k, v)]
  | (k0, v0) :: rest => if k0 = k then (k0, v) :: rest else (k0, v0) :: dset k v rest

/-- Python `dict.values()` in insertion order. -/
def dvalues {κ α : Type} (m : List (κ × α)) : List α := m.map Prod.snd

/-!
## Data model

`GreptileComment` as the code base uses it.  The dataclass in
src/models.py declares `comment_id` through `score`; `file_patch` and
`reply_body` are the two further attributes read by llm_evaluator.py and
written by the enrichment paths, modelled here as optional fields.
-/

structure GComment where
  comment_id : Nat
  comment_body : String
  comment_url : String := ""
  created_at : Nat := 0
  updated_at : Nat := 0
  file_path : Option String := none
  line_number : Option Nat := none
  diff_hunk : Option String := none
  comment_type : String := "review_comment"
  score : Option Int := none
  file_patch : Option String := none
  reply_body : Option String := none
  deriving Repr, DecidableEq

/-- The keyword-argument record of the `PRWithGreptileComments(...)`
construction at comment_fetcher.py lines 93-107 (also assumed by
run_evaluation.py and llm_evaluator.py).  The dataclass in
src/src/models.py lines 44-57 declares only the fields listed in
`prWithGreptileCommentsFields`: it omits `pr_updated_at` and
`trigger_type`, so in the source that constructor call raises
`TypeError` — modelled concretely by `dataclassInitCheck` inside
`fetch_with_dataclass_check`.  The evaluator functions verified here
(claims C5, C10) read only dataclass-declared fields of this record. -/
structure PRWithGreptileComments where
  repo : String
  org : String := ""
  pr_number : Nat
  pr_title : String := ""
  pr_author : String := ""
  pr_url : String := ""
  pr_created_at : Nat := 0
  pr_updated_at : Nat := 0
  pr_state : String := "open"
  greptile_comments : List GComment := []
  fetched_at : Nat := 0
  head_sha : Option String := none
  trigger_type : String := "new_pr"
  deriving Repr, DecidableEq

/-- `RepoState` from src/models.py: the per-repository watermark. -/
structure RepoState where
  repo : String
  last_checked : Nat
  last_pr_number : Option Nat := none
  error_count : Nat := 0
  pr_shas : Option (List (Nat × String)) := none
  deriving Repr, DecidableEq

/-- One pull request as yielded by `GitHubClient.get_pull_requests`,
together with the Greptile comments `_fetch_greptile_comments_for_pr`
would collect for it (that helper maps the three per-PR API streams
through the bot filter; its output is taken as input here since the
streams themselves are network data). -/
structure PRInput where
  number : Nat
  head_sha : String
  created_at : Nat
  updated_at : Nat := 0
  title : String := ""
  author : String := ""
  html_url : String := ""
  state : String := "open"
  greptile_comments : List GComment := []
  deriving Repr, DecidableEq

/-!
## comment_fetcher.py — `fetch_greptile_comments_for_repo`
-/

/-- Loop accumulator of the `for pr in ...get_pull_requests(...)` loop. -/
structure FetchAcc where
  results : List PRWithGreptileComments := []
  latest : Option Nat := none
  shas : List (Nat × String) := []
  deriving Repr, DecidableEq

/-- `is_new_pr = since is None or pr_created >= since`. -/
def isNewPRCond (since : Option Nat) (created : Nat) : Bool :=
  match since with
  | none => true
  | some s => decide (s ≤ created)

/-- `has_new_commits = old_sha is not None and old_sha != head_sha`. -/
def hasNewCommitsCond (oldShas : List (Nat × String)) (pr : PRInput) : Bool :=
  match dget pr.number oldShas with
  | none => false
  | some oldSha => decide (oldSha ≠ pr.head_sha)

/-- The value the `PRWithGreptileComments(...)` call at
comment_fetcher.py lines 93-107 names through its keyword arguments.
In the source this construction never completes — the dataclass rejects
two of the keywords (see `dataclassInitCheck` and
`fetch_with_dataclass_check`); `mkResult` is what the call would build,
used by the dead success branch of the checked loop and by the abstract
loop model below. -/
def mkResult (cfgRepo cfgOrg : String) (now : Nat) (trig : String)
    (pr : PRInput) : PRWithGreptileComments :=
  { repo := cfgRepo
    org := cfgOrg
    pr_number := pr.number
    pr_title := pr.title
    pr_author := pr.author
    pr_url := pr.html_url
    pr_created_at := pr.created_at
    pr_updated_at := pr.updated_at
    pr_state := pr.state
    greptile_comments := pr.greptile_comments
    fetched_at := now
    head_sha := some pr.head_sha
    trigger_type := trig }

/-- One iteration of the pull-request loop in
`fetch_greptile_comments_for_repo` (comment_fetcher.py lines 64-113),
in the abstract model whose exception site is the `interrupted`
parameter of `fetch_greptile_comments_for_repo` (used for the
failure-semantics claim C2, whose conclusions are exception-agnostic).
The concrete `TypeError` the result append raises in the source is
modelled separately by `fetchEmitChecked`/`fetchTryChecked`. -/
def fetchStep (cfgRepo cfgOrg : String) (now : Nat) (since : Option Nat)
    (oldShas : List (Nat × String)) (acc : FetchAcc) (pr : PRInput) : FetchAcc :=
  let is_new_pr := isNewPRCond since pr.created_at
  let has_new_commits := hasNewCommitsCond oldShas pr
  let acc1 :=
    if is_new_pr || has_new_commits then
      let trig := if is_new_pr then "new_pr" else "new_commits"
      if pr.greptile_comments.isEmpty then acc
      else { acc with results := acc.results ++ [mkResult cfgRepo cfgOrg now trig pr] }
    else acc
  { acc1 with
    shas := dset pr.number pr.head_sha acc1.shas
    latest := match acc1.latest with
      | none => some pr.number
      | some m => some (max m pr.number) }

/-- `old_pr_shas = state.pr_shas if state and state.pr_shas else {}`. -/
def oldShasOf (state : Option RepoState) : List (Nat × String) :=
  match state with
  | some s => (s.pr_shas.getD [])
  | none => []

/-- `fetch_greptile_comments_for_repo` (comment_fetcher.py lines 46-133).
`now` stands for `datetime.now(timezone.utc)`; `interrupted = some k`
models the `except Exception` branch being reached after `k` loop
iterations (the partial `results` list accumulated so far is returned
with the error-branch state), `interrupted = none` the successful run. -/
def fetch_greptile_comments_for_repo (cfgRepo cfgOrg : String) (now : Nat)
    (state : Option RepoState) (prs : List PRInput) (interrupted : Option Nat) :
    List PRWithGreptileComments × RepoState :=
  let since := state.map (·.last_checked)
  let oldShas := oldShasOf state
  let latest0 := state.bind (·.last_pr_number)
  match interrupted with
  | none =>
    let acc := prs.foldl (fetchStep cfgRepo cfgOrg now since oldShas)
      { results := [], latest := latest0, shas := [] }
    (acc.results,
      { repo := cfgRepo
        last_checked := now
        last_pr_number := acc.latest
        error_count := 0
        pr_shas := some acc.shas })
  | some k =>
    let acc := (prs.take k).foldl (fetchStep cfgRepo cfgOrg now since oldShas)
      { results := [], latest := latest0, shas := [] }
    (acc.results,
      match state with
      | some s =>
        { repo := cfgRepo
          last_checked := s.last_checked
          last_pr_number := s.last_pr_number
          error_count := s.error_count + 1
          pr_shas := some oldShas }
      | none =>
        { repo := cfgRepo
          last_checked := now
          last_pr_number := none
          error_count := 1
          pr_shas := some oldShas })

/-- Declarative per-pull-request emission: the result record produced for
`pr`, when it needs processing and has Greptile comments. -/
def emitOne (cfgRepo cfgOrg : String) (now : Nat) (since : Option Nat)
    (oldShas : List (Nat × String)) (pr : PRInput) :
    Option PRWithGreptileComments :=
  let is_new_pr := isNewPRCond since pr.created_at
  let has_new_commits := hasNewCommitsCond oldShas pr
  if (is_new_pr || has_new_commits) && !pr.greptile_comments.isEmpty then
    some (mkResult cfgRepo cfgOrg now
      (if is_new_pr then "new_pr" else "new_commits") pr)
  else none

/-- Declarative reading of the decision rule of comment_fetcher.py lines
76-80 for a repository with a prior watermark: the pull request needs
(re-)processing when its creation time is at or after `last_checked`, or
a head commit was recorded for its number and differs from the current
one. -/
def needsProcessing (st : RepoState) (pr : PRInput) : Prop :=
  st.last_checked ≤ pr.created_at ∨
    (∃ sha0, dget pr.number (st.pr_shas.getD []) = some sha0 ∧ sha0 ≠ pr.head_sha)

instance (st : RepoState) (pr : PRInput) : Decidable (needsProcessing st pr) := by
  unfold needsProcessing
  cases h : dget pr.number (st.pr_shas.getD []) with
  | none => exact decidable_of_iff (st.last_checked ≤ pr.created_at) (by simp [h])
  | some sha0 =>
    exact decidable_of_iff (st.last_checked ≤ pr.created_at ∨ sha0 ≠ pr.head_sha)
      (by simp [h])

/-- The trigger classification the loop assigns: `new_pr` whenever the
creation-time test passes, `new_commits` only otherwise. -/
def triggerOf (st : RepoState) (pr : PRInput) : String :=
  if st.last_checked ≤ pr.created_at then "new_pr" else "new_commits"

/-- Witness repository state: watermark 5, head commit "a" recorded for
pull request 1. -/
def stW1 : RepoState :=
  { repo := "acme/widgets", last_checked := 5, last_pr_number := some 1
    error_count := 0, pr_shas := some [(1, "a")] }

/-- Witness PR 1: re-appears with unchanged head commit and
pre-watermark creation time (skipped). -/
def prW1a : PRInput :=
  { number := 1, head_sha := "a", created_at := 3
    greptile_comments := [{ comment_id := 10, comment_body := "old" }] }

/-- Witness PR 2: new (created after the watermark) with one comment. -/
def prW2a : PRInput :=
  { number := 2, head_sha := "c", created_at := 9
    greptile_comments := [{ comment_id := 11, comment_body := "Null check missing" }] }

/-- Witness pull-request list. -/
def prsW1 : List PRInput := [prW1a, prW2a]

/-- Counterexample input: PR 1 was created at or after the watermark AND
its recorded head commit changed ("a" to "b"), with one comment. -/
def prCx1 : PRInput :=
  { number := 1, head_sha := "b", created_at := 7
    greptile_comments := [{ comment_id := 12, comment_body := "catch" }] }

/-- Counterexample pull-request list. -/
def prsCx1 : List PRInput := [prCx1]

/-- The field names the `PRWithGreptileComments` dataclass actually
declares in src/src/models.py lines 44-57. -/
def prWithGreptileCommentsFields : List String :=
  ["repo", "org", "pr_number", "pr_title", "pr_author", "pr_url",
   "pr_created_at", "pr_state", "greptile_comments", "fetched_at", "head_sha"]

/-- The keyword arguments the construction at comment_fetcher.py lines
93-107 passes. -/
def fetcherResultKwargs : List String :=
  ["repo", "org", "pr_number", "pr_title", "pr_author", "pr_url",
   "pr_created_at", "pr_updated_at", "pr_state", "greptile_comments",
   "fetched_at", "head_sha", "trigger_type"]

/-- The keyword check a Python dataclass `__init__` performs: an
unexpected keyword argument raises `TypeError` (the failure mode this
call site triggers; all declared fields are supplied, so the
missing-argument mode cannot occur here). -/
def dataclassInitCheck (fields kwargs : List String) : Except String Unit :=
  match kwargs.find? (fun k => !(fields.contains k)) with
  | some k => .error ("TypeError: unexpected keyword argument " ++ k)
  | none => .ok ()

/-- The emission attempt for one pull request in the loop of
`fetch_greptile_comments_for_repo`, with the
`PRWithGreptileComments(...)` construction modelled by the dataclass
keyword check: when the pull request needs processing and its fetched
comments are non-empty, the constructor call is made and — because
src/src/models.py declares neither `pr_updated_at` nor `trigger_type` —
raises `TypeError`, carried here as `.error` with the results
accumulated so far. -/
def fetchEmitChecked (cfgRepo cfgOrg : String) (now : Nat) (since : Option Nat)
    (oldShas : List (Nat × String)) (acc : FetchAcc) (pr : PRInput) :
    Except FetchAcc FetchAcc :=
  if isNewPRCond since pr.created_at || hasNewCommitsCond oldShas pr then
    if pr.greptile_comments.isEmpty then .ok acc
    else
      match dataclassInitCheck prWithGreptileCommentsFields fetcherResultKwargs with
      | .error _ => .error acc
      | .ok _ => .ok { acc with results := acc.results ++
          [mkResult cfgRepo cfgOrg now
            (if isNewPRCond since pr.created_at then "new_pr" else "new_commits") pr] }
  else .ok acc

/-- The `for pr in ...` loop of `fetch_greptile_comments_for_repo` with
the constructor `TypeError` modelled: an exception aborts the loop
before the current pull request's head commit is recorded
(comment_fetcher.py line 110 runs after the append). -/
def fetchTryChecked (cfgRepo cfgOrg : String) (now : Nat) (since : Option Nat)
    (oldShas : List (Nat × String)) :
    List PRInput → FetchAcc → Except FetchAcc FetchAcc
  | [], acc => .ok acc
  | pr :: rest, acc =>
    match fetchEmitChecked cfgRepo cfgOrg now since oldShas acc pr with
    | .error acc2 => .error acc2
    | .ok acc1 =>
      fetchTryChecked cfgRepo cfgOrg now since oldShas rest
        { acc1 with
          shas := dset pr.number pr.head_sha acc1.shas
          latest := match acc1.latest with
            | none => some pr.number
            | some m => some (max m pr.number) }

/-- `fetch_greptile_comments_for_repo` (comment_fetcher.py lines 46-133)
with the dataclass keyword mismatch modelled concretely: the `TypeError`
raised by the `PRWithGreptileComments(...)` call lands in the
`except Exception` branch, which returns the results accumulated so far
(necessarily none, as every append raises) together with the error-state
watermark.  The abstract model `fetch_greptile_comments_for_repo` above
treats the exception site as the opaque `interrupted` parameter instead;
this variant instantiates it. -/
def fetch_with_dataclass_check (cfgRepo cfgOrg : String) (now : Nat)
    (state : Option RepoState) (prs : List PRInput) :
    List PRWithGreptileComments × RepoState :=
  let since := state.map (·.last_checked)
  let oldShas := oldShasOf state
  let latest0 := state.bind (·.last_pr_number)
  match fetchTryChecked cfgRepo cfgOrg now since oldShas prs
      { results := [], latest := latest0, shas := [] } with
  | .ok acc =>
    (acc.results,
      { repo := cfgRepo
        last_checked := now
        last_pr_number := acc.latest
        error_count := 0
        pr_shas := some acc.shas })
  | .error acc =>
    (acc.results,
      match state with
      | some s =>
        { repo := cfgRepo
          last_checked := s.last_checked
          last_pr_number := s.last_pr_number
          error_count := s.error_count + 1
          pr_shas := some oldShas }
      | none =>
        { repo := cfgRepo
          last_checked := now
          last_pr_number := none
          error_count := 1
          pr_shas := some oldShas })

/-!
## github_client.py — `_find_reply_and_url`

One comment dict of the pre-fetched review-comment list: `user` is the
login (`none` models a missing/falsy `user` field), `id`, `html_url` and
`in_reply_to_id` model `comment.get(...)`, `body` models
`comment.get("body", "")`.
-/

structure LiveComment where
  user : Option String := none
  id : Option Nat := none
  html_url : Option String := none
  body : String := ""
  in_reply_to_id : Option Nat := none
  deriving Repr, DecidableEq

/-- `GitHubClient.is_greptile_user` (github_client.py lines 188-196).
`GREPTILE_BOT_NAMES` lives in src/constants.py, which is not among the
harvested sources, so the allow-list is a parameter here; the spec
describes it as a small fixed allow-list of bot account name variants. -/
def is_greptile_user (botNames : List String) (user : Option String) : Bool :=
  match user with
  | none => false
  | some login => botNames.any (fun b => pyIn (pyLower b) (pyLower login))

/-- The body-match test of github_client.py line 402:
`greptile_body[:100] in body or body[:100] in greptile_body`. -/
def bodiesMatch (greptile_body body : String) : Bool :=
  pyIn (pyTake 100 greptile_body) body || pyIn (pyTake 100 body) greptile_body

/-- Python truthiness of the `greptile_comment_id` variable. -/
def idTruthy : Option Nat → Bool
  | none => false
  | some n => decide (n ≠ 0)

/-- State of the single `for comment in all_comments` loop. -/
structure ReplyScan where
  gid : Option Nat := none
  gurl : Option String := none
  replies : List String := []
  deriving Repr, DecidableEq

/-- One iteration of the loop in `_find_reply_and_url`
(github_client.py lines 397-406). -/
def replyStep (botNames : List String) (greptile_body : String)
    (st : ReplyScan) (c : LiveComment) : ReplyScan :=
  if is_greptile_user botNames c.user then
    if bodiesMatch greptile_body c.body then
      { st with gid := c.id, gurl := c.html_url }
    else st
  else if idTruthy st.gid && (c.in_reply_to_id == st.gid) then
    { st with replies := st.replies ++ [c.body] }
  else st

/-- `GitHubClient._find_reply_and_url` (github_client.py lines 380-409). -/
def find_reply_and_url (botNames : List String) (all_comments : List LiveComment)
    (greptile_body : String) : Option String × Option String :=
  if greptile_body = "" then (none, none)
  else
    let st := all_comments.foldl (replyStep botNames greptile_body) {}
    ((if st.replies.isEmpty then none
      else some (String.intercalate "\n---\n" st.replies)), st.gurl)

/-- A bot comment whose body passes the match test. -/
def matchedBot (botNames : List String) (t : String) (c : LiveComment) : Bool :=
  is_greptile_user botNames c.user && bodiesMatch t c.body

/-- The last body-matched bot comment of a list, if any. -/
def lastMatched (botNames : List String) (t : String) : List LiveComment → Option LiveComment
  | [] => none
  | c :: rest =>
    match lastMatched botNames t rest with
    | some m => some m
    | none => if matchedBot botNames t c then some c else none

/-- The `greptile_comment_id` value after scanning a list, starting from
`g0`: the id of the most recently matched bot comment, else `g0`. -/
def gidAt (botNames : List String) (t : String) (g0 : Option Nat)
    (l : List LiveComment) : Option Nat :=
  match lastMatched botNames t l with
  | some m => m.id
  | none => g0

/-- Declarative description of the reply bodies the single pass collects,
starting with `greptile_comment_id = g0`: a non-bot comment is collected
exactly when its `in_reply_to_id` equals the (truthy) id of the most
recently matched bot comment seen so far. -/
def collectReplies (botNames : List String) (t : String) (g0 : Option Nat) :
    List LiveComment → List String
  | [] => []
  | c :: rest =>
    if is_greptile_user botNames c.user then
      if bodiesMatch t c.body then collectReplies botNames t c.id rest
      else collectReplies botNames t g0 rest
    else if idTruthy g0 && (c.in_reply_to_id == g0) then
      c.body :: collectReplies botNames t g0 rest
    else collectReplies botNames t g0 rest

/-- Witness bot-name allow-list. -/
def bnW : List String := ["greptile"]

/-- A developer reply pointing at comment id 5. -/
def replyW : LiveComment :=
  { user := some "dev", body := "thanks", in_reply_to_id := some 5 }

/-- A bot comment with id 5 whose body is exactly the target "B". -/
def botW : LiveComment :=
  { user := some "greptile[bot]", id := some 5, html_url := some "https://x/5"
    body := "B" }

/-- A live bot comment whose body strictly contains the target "A". -/
def liveAW : LiveComment :=
  { user := some "greptile[bot]", id := some 7, html_url := some "https://x/7"
    body := "A plus extra text" }

/-!
## llm_evaluator.py — judgment engine

The oracle (`self.client.messages.create` plus response-text extraction
and `json.loads`) is external; it is modelled by its outcome.  For the
single-comment path the outcome distinguishes an API-side exception, a
`json.JSONDecodeError`, and a successfully parsed JSON value (`PyVal`).
For the batch path the code returns `None` on either failure, so the
outcome is an `Option` of the parsed evaluation record, typed with the
fields the batch prompt specifies.
-/

/-- A parsed Python/JSON value. -/
inductive PyVal where
  | obj : List (String × PyVal) → PyVal
  | arr : List PyVal → PyVal
  | str : String → PyVal
  | intv : Int → PyVal
  | boolv : Bool → PyVal
  | null : PyVal
  deriving Repr

/-- Outcome of the oracle call in `evaluate_comment`: an exception from
the API call or response extraction, a JSON decode error on the
(fence-stripped) response text, or the parsed value. -/
inductive OracleOutcome where
  | apiError (msg : String)
  | parseError (msg : String)
  | parsed (v : PyVal)
  deriving Repr

/-- Python `value.get(key, default)`: defined on dict objects, raises
`AttributeError` on every other value. -/
def pyValGet (v : PyVal) (k : String) (dflt : PyVal) : Except String PyVal :=
  match v with
  | .obj fields => .ok ((dget k fields).getD dflt)
  | _ => .error "AttributeError: object has no attribute get"

/-- The `evaluation` variable after the try/except of
llm_evaluator.py lines 193-226: the parsed value on success, and the
negative fragments the two handlers build otherwise. -/
def evaluationOf (o : OracleOutcome) : PyVal :=
  match o with
  | .parsed v => v
  | .parseError m => .obj
      [("is_great_catch", .boolv false), ("bug_category", .null),
       ("severity", .null), ("reasoning", .str ("Parse error: " ++ m))]
  | .apiError m => .obj
      [("is_great_catch", .boolv false), ("bug_category", .null),
       ("severity", .null), ("reasoning", .str ("API error: " ++ m))]

/-- The dict `evaluate_comment` returns (llm_evaluator.py lines 229-245):
original comment data combined with the four evaluation fields read via
`evaluation.get`. -/
structure EvalFragment where
  repo : String
  pr_number : Nat
  pr_title : String
  pr_url : String
  comment_id : Nat
  comment_type : String
  score : Option Int
  comment_body : String
  comment_url : String
  reply_body : Option String
  created_at : Nat
  is_great_catch : PyVal
  bug_category : PyVal
  severity : PyVal
  llm_reasoning : PyVal
  deriving Repr

/-- `LLMEvaluator.evaluate_comment` (llm_evaluator.py lines 143-245),
as a function of the oracle outcome.  The prompt construction preceding
the call is pure string formatting and does not affect the returned
value.  Note the `evaluation.get(...)` reads sit *outside* the
try/except, so they raise when the parsed value is not a JSON object. -/
def evaluate_comment (comment : GComment) (pr : PRWithGreptileComments)
    (o : OracleOutcome) : Except String EvalFragment :=
  let ev := evaluationOf o
  match pyValGet ev "is_great_catch" (.boolv false) with
  | .error e => .error e
  | .ok g =>
    match pyValGet ev "bug_category" .null with
    | .error e => .error e
    | .ok bc =>
      match pyValGet ev "severity" .null with
      | .error e => .error e
      | .ok sv =>
        match pyValGet ev "reasoning" (.str "") with
        | .error e => .error e
        | .ok rs => .ok
            { repo := pr.repo
              pr_number := pr.pr_number
              pr_title := pr.pr_title
              pr_url := pr.pr_url
              comment_id := comment.comment_id
              comment_type := comment.comment_type
              score := comment.score
              comment_body := comment.comment_body
              comment_url := comment.comment_url
              reply_body := comment.reply_body
              created_at := comment.created_at
              is_great_catch := g
              bug_category := bc
              severity := sv
              llm_reasoning := rs }

/-- `LLMEvaluator._is_skipped_comment` (llm_evaluator.py lines 293-295). -/
def _is_skipped_comment (c : GComment) : Bool :=
  pyIn "<!-- greptile-status -->" c.comment_body && pyIn "Skipped:" c.comment_body

/-- `LLMEvaluator._is_review_summary` (llm_evaluator.py lines 297-301). -/
def _is_review_summary (c : GComment) : Bool :=
  let body := pyStrip c.comment_body
  pyStartsWith body "<sub>" && pyIn "file reviewed" body && decide (body.length < 300)

/-- The fixed positive-acknowledgment vocabulary of
`_has_positive_reply` (llm_evaluator.py lines 310-332). -/
def positive_indicators : List String :=
  ["good catch", "great catch", "nice catch", "thanks", "thank you",
   "fixed", "will fix", "you\x27re right", "you are right", "correct",
   "agreed", "makes sense", "good point", "valid point", "addressed",
   "done", "updated", "resolved", "👍", "legit", "this looks legit"]

/-- `LLMEvaluator._has_positive_reply` (llm_evaluator.py lines 303-334). -/
def _has_positive_reply (reply_body : String) : Bool :=
  if reply_body = "" then false
  else positive_indicators.any (fun ind => pyIn ind (pyLower reply_body))

/-- The parsed batch evaluation, with the fields the batch prompt
specifies (llm_evaluator.py lines 109-117). -/
structure BatchEval where
  has_great_catch : Bool := false
  selected_comment_index : Option Int := none
  bug_category : Option String := none
  severity : Option String := none
  reasoning : String := ""
  duplicates_found : List String := []
  deriving Repr, DecidableEq

/-- The dict `evaluate_pr_batch` returns for the selected winner
(llm_evaluator.py lines 431-443). -/
structure CatchRow where
  repo : String
  pr_number : Nat
  pr_title : String
  pr_url : String
  comment_body : String
  comment_url : String
  reply_body : Option String
  created_at : Nat
  bug_category : Option String
  severity : Option String
  llm_reasoning : String
  deriving Repr, DecidableEq

/-- The noise filter of llm_evaluator.py lines 364-367. -/
def valid_comments (pr : PRWithGreptileComments) : List GComment :=
  pr.greptile_comments.filter
    (fun c => !(_is_skipped_comment c) && !(_is_review_summary c))

/-- Python list subscripting `l[i]` with an `int` index: non-negative
indices from the front, negative indices from the back, `IndexError`
outside `[-len, len)`. -/
def pyIndex {α : Type} (l : List α) (i : Int) : Except String α :=
  if 0 ≤ i then
    match l.get? i.toNat with
    | some x => .ok x
    | none => .error "IndexError"
  else if (l.length : Int) + i < 0 then .error "IndexError"
  else
    match l.get? ((l.length : Int) + i).toNat with
    | some x => .ok x
    | none => .error "IndexError"

/-- The winner record built at llm_evaluator.py lines 431-443. -/
def mkCatchRow (pr : PRWithGreptileComments) (ev : BatchEval)
    (sel : GComment) : CatchRow :=
  { repo := pr.repo
    pr_number := pr.pr_number
    pr_title := pr.pr_title
    pr_url := pr.pr_url
    comment_body := sel.comment_body
    comment_url := sel.comment_url
    reply_body := sel.reply_body
    created_at := sel.created_at
    bug_category := ev.bug_category
    severity := ev.severity
    llm_reasoning := ev.reasoning }

/-- `LLMEvaluator.evaluate_pr_batch` (llm_evaluator.py lines 354-443).
`oracle pr = none` models both a `json.JSONDecodeError` and an API
exception (each makes the code return `None`).  The guard rejects only
`None` and too-large indices (`selected_idx >= len(valid_comments)`);
the subsequent subscript `valid_comments[selected_idx]` happens outside
the try/except and follows Python indexing. -/
def evaluate_pr_batch (oracle : PRWithGreptileComments → Option BatchEval)
    (pr : PRWithGreptileComments) : Except String (Option CatchRow) :=
  let valid := valid_comments pr
  if valid.isEmpty then .ok none
  else
    match oracle pr with
    | none => .ok none
    | some ev =>
      if !ev.has_great_catch then .ok none
      else
        match ev.selected_comment_index with
        | none => .ok none
        | some idx =>
          if (valid.length : Int) ≤ idx then .ok none
          else
            match pyIndex valid idx with
            | .error e => .error e
            | .ok sel => .ok (some (mkCatchRow pr ev sel))

/-- The severity-gated acceptance test of `evaluate_comments`
(llm_evaluator.py lines 483-494): `best_catch.get("severity", "").lower()`
raises `AttributeError` when the stored severity is `None`; a lowered
severity of `low` or `medium` requires a positive developer reply
(`best_catch.get("reply_body") or ""`), everything else is accepted. -/
def acceptGate (best : CatchRow) : Except String Bool :=
  match best.severity with
  | none => .error "AttributeError: NoneType object has no attribute lower"
  | some sev =>
    let sevL := pyLower sev
    if sevL = "low" || sevL = "medium" then
      .ok (_has_positive_reply (best.reply_body.getD ""))
    else .ok true

/-- `LLMEvaluator.evaluate_comments` (llm_evaluator.py lines 445-503):
per pull request, skip when no comment survives the noise filter, run
batch evaluation, and keep the winning verdict subject to the
severity-gated reply requirement. -/
def evaluate_comments (oracle : PRWithGreptileComments → Option BatchEval) :
    List PRWithGreptileComments → Except String (List CatchRow)
  | [] => .ok []
  | pr :: rest =>
    if (valid_comments pr).length = 0 then evaluate_comments oracle rest
    else
      match evaluate_pr_batch oracle pr with
      | .error e => .error e
      | .ok none => evaluate_comments oracle rest
      | .ok (some best) =>
        match acceptGate best with
        | .error e => .error e
        | .ok true =>
          match evaluate_comments oracle rest with
          | .error e => .error e
          | .ok tail => .ok (best :: tail)
        | .ok false => evaluate_comments oracle rest

/-- Witness comment for the evaluator claims. -/
def gcW : GComment :=
  { comment_id := 42, comment_body := "Null check missing on line 10"
    comment_url := "https://x/c42", created_at := 11
    reply_body := some "good catch, fixed" }

/-- Witness pull request with a single valid comment. -/
def prW5 : PRWithGreptileComments :=
  { repo := "acme/widgets", pr_number := 42, pr_title := "Add widgets"
    pr_url := "https://x/pr/42", greptile_comments := [gcW] }

/-- A fixed batch evaluation reporting a great catch at index `i` with
severity `sev`. -/
def bevOf (i : Int) (sev : String) : BatchEval :=
  { has_great_catch := true, selected_comment_index := some i
    bug_category := some "logic", severity := some sev
    reasoning := "obviously right" }

/-- A batch oracle reporting a great catch at a fixed index with a fixed
severity. -/
def oracleIdx (i : Int) (sev : String) :
    PRWithGreptileComments → Option BatchEval :=
  fun _ => some (bevOf i sev)

/-!
## sheets_sync.py — reconciliation sync

A published-verdict CSV row, restricted to the columns
`refresh_and_sync_open_prs` / `_reevaluate_prs` read or write; the
remaining CSV columns ride along unchanged and are omitted.  All values
are strings, as `csv.DictReader` yields them.
-/

structure Row where
  pr_url : String := ""
  evaluated_at : String := ""
  pr_state : String := ""
  pr_score : String := ""
  repo : String := ""
  pr_title : String := ""
  summary : String := ""
  catch_categories : String := ""
  deriving Repr, DecidableEq

/-- One iteration of the deduplication loop (sheets_sync.py lines
632-645 and identically 840-853): keep the existing row unless the new
row's `evaluated_at` string is strictly greater. -/
def dedupStep (m : List (String × Row)) (row : Row) : List (String × Row) :=
  if row.pr_url = "" then m
  else
    match dget row.pr_url m with
    | none => dset row.pr_url row m
    | some ex =>
      if pyStrLt ex.evaluated_at row.evaluated_at then dset row.pr_url row m
      else m

/-- The `pr_map` built by the deduplication loop. -/
def dedup_by_pr_url (rows : List Row) : List (String × Row) :=
  rows.foldl dedupStep []

/-- Per-URL view of one deduplication step: the kept row so far against
a new row for the same URL. -/
def keepLatest (cur : Option Row) (r : Row) : Option Row :=
  match cur with
  | none => some r
  | some ex =>
    if pyStrLt ex.evaluated_at r.evaluated_at then some r else some ex

/-- Raw per-PR issue comment as `_fetch_paginated` returns it: resolved
login (`""` when the user or login field is missing) and body. -/
structure RawIssueComment where
  login : String := ""
  body : String := ""
  created_at : String := ""
  deriving Repr, DecidableEq

/-- Raw inline review comment; `path`/`diff_hunk` model
`comment.get(...)` (key present, possibly null). -/
structure RawReviewComment where
  login : String := ""
  body : String := ""
  created_at : String := ""
  path : Option String := none
  diff_hunk : Option String := none
  deriving Repr, DecidableEq

/-- Raw review submission. -/
structure RawReview where
  login : String := ""
  body : String := ""
  submitted_at : String := ""
  deriving Repr, DecidableEq

/-- One dict of the list `_fetch_all_greptile_comments` builds.  The
double `Option` on `file_path`/`diff_hunk` distinguishes a missing key
(outer `none`, issue comments and reviews) from a key holding `None`
(`some none`, as review comments may). -/
structure FetchedComment where
  body : String := ""
  created_at : String := ""
  ctype : String := ""
  file_path : Option (Option String) := none
  diff_hunk : Option (Option String) := none
  deriving Repr, DecidableEq

/-- The exact-membership login test of sheets_sync.py
(`user_login in greptile_logins`, both sides lower-cased). -/
def loginIsGreptile (botNames : List String) (login : String) : Bool :=
  (botNames.map pyLower).contains (pyLower login)

/-- `SheetsSync._fetch_all_greptile_comments` (sheets_sync.py lines
445-504), over the three raw pages; the network fetch itself is
external input. -/
def _fetch_all_greptile_comments (botNames : List String)
    (issueC : List RawIssueComment) (reviewC : List RawReviewComment)
    (reviews : List RawReview) : List FetchedComment :=
  (issueC.filterMap fun c =>
    if loginIsGreptile botNames c.login then
      some { body := c.body, created_at := c.created_at, ctype := "issue_comment" }
    else none) ++
  (reviewC.filterMap fun c =>
    if loginIsGreptile botNames c.login then
      some { body := c.body, created_at := c.created_at, ctype := "review_comment"
             file_path := some c.path, diff_hunk := some c.diff_hunk }
    else none) ++
  (reviews.filterMap fun r =>
    if loginIsGreptile botNames r.login && decide (r.body ≠ "") then
      some { body := r.body, created_at := r.submitted_at, ctype := "review_body" }
    else none)

/-- Python `c.get(key, default)` for the doubly optional string fields:
a missing key gives the default, a key holding `None` renders as
`"None"` inside an f-string. -/
def optKeyStr (v : Option (Option String)) (dflt : String) : String :=
  match v with
  | none => dflt
  | some none => "None"
  | some (some s) => s

/-- Python truthiness of `c.get("diff_hunk")`. -/
def diffTruthy (v : Option (Option String)) : Bool :=
  match v with
  | some (some s) => decide (s ≠ "")
  | _ => false

/-- The hunk text used when `diffTruthy` holds. -/
def diffText (v : Option (Option String)) : String :=
  match v with
  | some (some s) => s
  | _ => ""

/-- One part of the combined comment text
(sheets_sync.py lines 548-554). -/
def format_comment_part (c : FetchedComment) : String :=
  let part := "[" ++ c.ctype ++ "] " ++ optKeyStr c.file_path "general"
  let part :=
    if diffTruthy c.diff_hunk then
      part ++ "\n\nCode context:\n```\n" ++ diffText c.diff_hunk ++ "\n```"
    else part
  part ++ "\n\nGreptile\x27s comment:\n" ++ c.body

/-- `comment_text` (sheets_sync.py line 555). -/
def comment_text_of (comments : List FetchedComment) : String :=
  String.intercalate "\n\n---\n\n" (comments.map format_comment_part)

/-- One entry of the `great_catches` array of a re-evaluation result. -/
structure ReevalCatch where
  bug_category : Option String := none
  severity : Option String := none
  reasoning : String := ""
  deriving Repr, DecidableEq

/-- The parsed result of `evaluate_single_pr_text`, with the fields its
prompt specifies (llm_evaluator.py lines 650-661). -/
structure ReevalResult where
  is_great_catch : Bool := false
  great_catches : List ReevalCatch := []
  summary : String := ""
  deriving Repr, DecidableEq

/-- External collaborators of the reconciliation pass, keyed by PR URL:
`prState` models `_get_pr_state_from_github` (`none` on any failure),
`latestScore` models `_get_latest_greptile_score`, the three raw pages
feed `_fetch_all_greptile_comments`, and `oracle repo title url text`
models `evaluate_single_pr_text` (`none` on parse or API error, which
is also how that method reports failure). -/
structure SyncEnv where
  prState : String → Option String
  latestScore : String → Option Int
  issueComments : String → List RawIssueComment
  reviewComments : String → List RawReviewComment
  reviews : String → List RawReview
  oracle : String → String → String → String → Option ReevalResult
  botNames : List String

/-- The live Greptile comments for a PR URL. -/
def live_comments (env : SyncEnv) (url : String) : List FetchedComment :=
  _fetch_all_greptile_comments env.botNames (env.issueComments url)
    (env.reviewComments url) (env.reviews url)

/-- `", ".join(list(set(...)))` over the truthy bug categories
(sheets_sync.py lines 569-572); Python set iteration order is
unspecified, modelled as first-occurrence order. -/
def catch_categories_of (catches : List ReevalCatch) : String :=
  String.intercalate ", " (List.eraseDups (catches.filterMap fun c =>
    match c.bug_category with
    | some b => if b ≠ "" then some b else none
    | none => none))

/-- Accumulator of the re-evaluation loop: the (mutated-in-place)
`pr_map` and the `prs_to_remove` list. -/
structure ReevalAcc where
  map : List (String × Row) := []
  remove : List String := []
  deriving Repr, DecidableEq

/-- The in-place row update on a still-qualifying re-evaluation
(sheets_sync.py lines 568-573). -/
def reevalUpdatedRow (now : String) (row : Row) (res : ReevalResult) : Row :=
  { row with
    summary := res.summary,
    catch_categories := catch_categories_of res.great_catches,
    evaluated_at := now }

/-- One iteration of the loop in `_reevaluate_prs`
(sheets_sync.py lines 533-581). -/
def reevalStep (env : SyncEnv) (now : String) (acc : ReevalAcc)
    (url : String) : ReevalAcc :=
  match dget url acc.map with
  | none => acc
  | some row =>
    let comments := live_comments env url
    if comments.isEmpty then { acc with remove := acc.remove ++ [url] }
    else
      match env.oracle row.repo row.pr_title url (comment_text_of comments) with
      | some res =>
        if res.is_great_catch then
          { acc with map := dset url (reevalUpdatedRow now row res) acc.map }
        else { acc with remove := acc.remove ++ [url] }
      | none => { acc with remove := acc.remove ++ [url] }

/-- `SheetsSync._reevaluate_prs` (sheets_sync.py lines 506-587).  `now`
stands for the PST-rendered `datetime.now` string.  The callers pass the
keys of a dict (no duplicates), so the trailing `del pr_map[url]` loop
removes each listed key once; it is modelled as a filter. -/
def _reevaluate_prs (env : SyncEnv) (now : String) (pr_urls : List String)
    (pr_map : List (String × Row)) : List (String × Row) :=
  let acc := pr_urls.foldl (reevalStep env now) { map := pr_map, remove := [] }
  acc.map.filter (fun kv => !(acc.remove.contains kv.1))

/-- Whether the loop body marks `url` for removal, given its row:
no live bot comments, or the re-evaluation oracle fails to return a
positive verdict. -/
def evictCond (env : SyncEnv) (url : String) (row : Row) : Bool :=
  let comments := live_comments env url
  if comments.isEmpty then true
  else
    match env.oracle row.repo row.pr_title url (comment_text_of comments) with
    | some res => !res.is_great_catch
    | none => true

/-- `old_score_int` parsing (sheets_sync.py lines 667-673). -/
def parse_old_score (s : String) : Option Int :=
  let t := if pyIn "/" s then (⟨s.data.takeWhile (fun c => c ≠ '/')⟩ : String) else s
  if t = "" then none else pyInt? t

/-- `f"{current_score}/5"`. -/
def int_score_str (sc : Int) : String := toString sc ++ "/5"

/-- The state/score refresh for one row (sheets_sync.py lines 652-681):
returns the updated row and whether the URL joins `score_changed_prs`
(score differs and the — already refreshed — state is open). -/
def refresh_row (env : SyncEnv) (url : String) (row : Row) : Row × Bool :=
  let row1 :=
    match env.prState url with
    | some s => if s ≠ "" ∧ s ≠ row.pr_state then { row with pr_state := s } else row
    | none => row
  match env.latestScore url with
  | none => (row1, false)
  | some sc =>
    if parse_old_score row1.pr_score ≠ some sc then
      ({ row1 with pr_score := int_score_str sc }, decide (row1.pr_state = "open"))
    else (row1, false)

/-- Observable outcome of `refresh_and_sync_open_prs`: the rows written
back to the local CSV, the rows written to the sink worksheet after its
clear (`none` when the sink is left untouched), and the return value. -/
structure SyncOutcome where
  csvRows : List Row := []
  sink : Option (List Row) := none
  ret : Nat := 0
  deriving Repr, DecidableEq

/-- The tail of `refresh_and_sync_open_prs` (sheets_sync.py lines
707-750): the rewritten CSV rows, then the open-state filter; when no
open row remains the function returns 0 without touching the sink,
otherwise it clears the worksheet, writes the open rows and returns
their count. -/
def sync_outcome_of (rows : List Row) : SyncOutcome :=
  let open_rows := rows.filter (fun r => r.pr_state == "open")
  { csvRows := rows
    sink := if open_rows.isEmpty then none else some open_rows
    ret := if open_rows.isEmpty then 0 else open_rows.length }

/-- `SheetsSync.refresh_and_sync_open_prs` (sheets_sync.py lines
589-750), on the refresh path (token present, CSV exists): deduplicate
by URL, refresh states and scores, re-evaluate the union of
score-changed and new-activity URLs (Python set order is unspecified;
modelled as first-occurrence order — per-URL effects are independent),
write the CSV back, and clear-then-write only the open rows — returning
0 and leaving the sink untouched when no open row remains. -/
def refresh_and_sync_open_prs (env : SyncEnv) (all_rows : List Row)
    (prs_with_new_activity : Option (List String)) (now : String) :
    SyncOutcome :=
  let pr_map0 := dedup_by_pr_url all_rows
  let refreshed := pr_map0.map (fun kv => (kv.1, refresh_row env kv.1 kv.2))
  let pr_map1 := refreshed.map (fun kv => (kv.1, kv.2.1))
  let score_changed := refreshed.filterMap
    (fun kv => if kv.2.2 then some kv.1 else none)
  let toReeval :=
    match prs_with_new_activity with
    | none => List.eraseDups score_changed
    | some acts =>
      if acts.isEmpty then List.eraseDups score_changed
      else List.eraseDups (score_changed ++ acts.filter (fun u =>
        match dget u pr_map1 with
        | some r => r.pr_state == "open"
        | none => false))
  let pr_map2 :=
    if toReeval.isEmpty then pr_map1
    else _reevaluate_prs env now toReeval pr_map1
  sync_outcome_of (dvalues pr_map2)

/-- Witness environment: one live bot comment per URL, a positive
re-evaluation oracle, no state or score refreshes. -/
def envW : SyncEnv :=
  { prState := fun _ => none
    latestScore := fun _ => none
    issueComments := fun _ => [{ login := "greptile-apps", body := "bug here" }]
    reviewComments := fun _ => []
    reviews := fun _ => []
    oracle := fun _ _ _ _ => some { is_great_catch := true, summary := "still good" }
    botNames := ["greptile-apps"] }

/-- Witness environment with no live comments anywhere. -/
def envEmptyW : SyncEnv :=
  { envW with issueComments := fun _ => [] }

/-- An open published row. -/
def rowW : Row :=
  { pr_url := "https://x/pr/1", evaluated_at := "2025-01-01 00:00:00"
    pr_state := "open", pr_score := "4/5", repo := "acme/widgets"
    pr_title := "Add widgets" }

/-- A closed published row. -/
def rowClosedW : Row :=
  { rowW with pr_url := "https://x/pr/2", pr_state := "closed" }

/-- Two rows for the same URL with equal `evaluated_at` but different
payloads (tie-break counterexample for C7). -/
def rowTieA : Row :=
  { pr_url := "u", evaluated_at := "2025-02-02 00:00:00", summary := "first" }

/-- The later, otherwise identical tie row. -/
def rowTieB : Row :=
  { rowTieA with summary := "second" }

theorem fetchStep_results (cfgRepo cfgOrg : String) (now : Nat)
    (since : Option Nat) (oldShas : List (Nat × String)) (acc : FetchAcc)
    (pr : PRInput) :
    (fetchStep cfgRepo cfgOrg now since oldShas acc pr).results =
      acc.results ++ (emitOne cfgRepo cfgOrg now since oldShas pr).toList := by
  simp only [fetchStep, emitOne]
  by_cases h1 : (isNewPRCond since pr.created_at || hasNewCommitsCond oldShas pr) = true
  · by_cases h2 : pr.greptile_comments.isEmpty = true
    · simp [h1, h2]
    · simp only [Bool.not_eq_true] at h2
      simp [h1, h2]
  · simp only [Bool.not_eq_true] at h1
    simp [h1]

theorem fetchFold_results (cfgRepo cfgOrg : String) (now : Nat)
    (since : Option Nat) (oldShas : List (Nat × String)) :
    ∀ (prs : List PRInput) (acc : FetchAcc),
    (prs.foldl (fetchStep cfgRepo cfgOrg now since oldShas) acc).results =
      acc.results ++ prs.filterMap (emitOne cfgRepo cfgOrg now since oldShas) := by
  intro prs
  induction prs with
  | nil => intro acc; simp
  | cons pr rest ih =>
    intro acc
    simp only [List.foldl_cons, List.filterMap_cons]
    rw [ih]
    rw [fetchStep_results]
    cases h : emitOne cfgRepo cfgOrg now since oldShas pr with
    | none => simp
    | some r => simp

theorem fetchStep_shas (cfgRepo cfgOrg : String) (now : Nat)
    (since : Option Nat) (oldShas : List (Nat × String)) (acc : FetchAcc)
    (pr : PRInput) :
    (fetchStep cfgRepo cfgOrg now since oldShas acc pr).shas =
      dset pr.number pr.head_sha acc.shas := by
  simp only [fetchStep]
  by_cases h1 : (isNewPRCond since pr.created_at || hasNewCommitsCond oldShas pr) = true
  · by_cases h2 : pr.greptile_comments.isEmpty = true
    · simp [h1, h2]
    · simp only [Bool.not_eq_true] at h2
      simp [h1, h2]
  · simp only [Bool.not_eq_true] at h1
    simp [h1]

theorem dget_dset_same {κ α : Type} [DecidableEq κ] (k : κ) (v : α) :
    ∀ m : List (κ × α), dget k (dset k v m) = some v := by
  intro m
  induction m with
  | nil => simp [dget, dset]
  | cons kv rest ih =>
    obtain ⟨k0, v0⟩ := kv
    by_cases h : k0 = k
    · simp [dget, dset, h]
    · simp [dget, dset, h, ih]

theorem dget_dset_other {κ α : Type} [DecidableEq κ] (k k1 : κ) (v : α)
    (h : k1 ≠ k) : ∀ m : List (κ × α), dget k (dset k1 v m) = dget k m := by
  intro m
  induction m with
  | nil => simp [dget, dset, h]
  | cons kv rest ih =>
    obtain ⟨k0, v0⟩ := kv
    by_cases h0 : k0 = k1
    · subst h0
      simp [dget, dset, h, fun hc : k0 = k => h (hc ▸ rfl)]
    · by_cases h2 : k0 = k
      · subst h2
        simp [dget, dset, h0, fun hc : k0 = k1 => h0 hc]
      · simp [dget, dset, h0, h2, ih]

theorem fetchFold_shas_notMem (cfgRepo cfgOrg : String) (now : Nat)
    (since : Option Nat) (oldShas : List (Nat × String)) (n : Nat) :
    ∀ (prs : List PRInput) (acc : FetchAcc), n ∉ prs.map PRInput.number →
    dget n (prs.foldl (fetchStep cfgRepo cfgOrg now since oldShas) acc).shas =
      dget n acc.shas := by
  intro prs
  induction prs with
  | nil => intro acc _; rfl
  | cons pr rest ih =>
    intro acc hn
    simp only [List.map_cons, List.mem_cons, not_or] at hn
    simp only [List.foldl_cons]
    rw [ih _ hn.2, fetchStep_shas, dget_dset_other _ _ _ (fun h => hn.1 h.symm)]

theorem fetchFold_shas_mem (cfgRepo cfgOrg : String) (now : Nat)
    (since : Option Nat) (oldShas : List (Nat × String)) :
    ∀ (prs : List PRInput) (acc : FetchAcc) (pr : PRInput),
    pr ∈ prs → (prs.map PRInput.number).Nodup →
    dget pr.number (prs.foldl (fetchStep cfgRepo cfgOrg now since oldShas) acc).shas =
      some pr.head_sha := by
  intro prs
  induction prs with
  | nil => intro acc pr h; exact absurd h (List.not_mem_nil pr)
  | cons p0 rest ih =>
    intro acc pr hmem hnd
    simp only [List.map_cons, List.nodup_cons] at hnd
    rcases List.mem_cons.mp hmem with h | h
    · subst h
      simp only [List.foldl_cons]
      rw [fetchFold_shas_notMem _ _ _ _ _ _ _ _ hnd.1, fetchStep_shas,
        dget_dset_same]
    · simp only [List.foldl_cons]
      exact ih _ _ h hnd.2

theorem cond_iff_needsProcessing (st : RepoState) (pr : PRInput) :
    (isNewPRCond (some st.last_checked) pr.created_at ||
      hasNewCommitsCond (oldShasOf (some st)) pr) = true ↔ needsProcessing st pr := by
  unfold isNewPRCond hasNewCommitsCond needsProcessing oldShasOf
  cases h : dget pr.number (st.pr_shas.getD []) with
  | none => simp [h]
  | some sha0 => simp [h]

theorem trigger_eq_triggerOf (st : RepoState) (pr : PRInput) :
    (if isNewPRCond (some st.last_checked) pr.created_at = true
      then "new_pr" else "new_commits") = triggerOf st pr := by
  simp [isNewPRCond, triggerOf]

theorem emitOne_some_iff (cfgRepo cfgOrg : String) (now : Nat) (st : RepoState)
    (pr : PRInput) (res : PRWithGreptileComments) :
    emitOne cfgRepo cfgOrg now (some st.last_checked) (oldShasOf (some st)) pr
        = some res ↔
      needsProcessing st pr ∧ pr.greptile_comments ≠ [] ∧
        res = mkResult cfgRepo cfgOrg now (triggerOf st pr) pr := by
  simp only [emitOne]
  rw [trigger_eq_triggerOf]
  split_ifs with h
  · rw [Bool.and_eq_true] at h
    obtain ⟨h1, h2⟩ := h
    have hnp : needsProcessing st pr := (cond_iff_needsProcessing st pr).mp h1
    have hne : pr.greptile_comments ≠ [] := by
      simpa using h2
    simp [hnp, hne, eq_comm]
  · constructor
    · intro hx
      simp at hx
    · rintro ⟨hnp, hne, -⟩
      exfalso
      apply h
      have hc := (cond_iff_needsProcessing st pr).mpr hnp
      have he : pr.greptile_comments.isEmpty = false := by
        simpa using hne
      simp [hc, he]

theorem dataclassInitCheck_fetcher :
    dataclassInitCheck prWithGreptileCommentsFields fetcherResultKwargs =
      .error "TypeError: unexpected keyword argument pr_updated_at" := by
  rfl

theorem fetch_with_dataclass_check_eq (cfgRepo cfgOrg : String) (now : Nat)
    (st : RepoState) (prs : List PRInput) :
    fetch_with_dataclass_check cfgRepo cfgOrg now (some st) prs =
      match fetchTryChecked cfgRepo cfgOrg now (some st.last_checked)
          (oldShasOf (some st)) prs
          { results := [], latest := st.last_pr_number, shas := [] } with
      | .ok acc =>
        (acc.results,
          { repo := cfgRepo, last_checked := now, last_pr_number := acc.latest,
            error_count := 0, pr_shas := some acc.shas })
      | .error acc =>
        (acc.results,
          { repo := cfgRepo, last_checked := st.last_checked,
            last_pr_number := st.last_pr_number,
            error_count := st.error_count + 1,
            pr_shas := some (st.pr_shas.getD []) }) := rfl

theorem fetchEmitChecked_error (cfgRepo cfgOrg : String) (now : Nat)
    (since : Option Nat) (oldShas : List (Nat × String)) (acc : FetchAcc)
    (pr : PRInput)
    (hc : (isNewPRCond since pr.created_at || hasNewCommitsCond oldShas pr) = true)
    (hne : pr.greptile_comments ≠ []) :
    fetchEmitChecked cfgRepo cfgOrg now since oldShas acc pr = .error acc := by
  have he : pr.greptile_comments.isEmpty = false := by
    simpa using hne
  simp [fetchEmitChecked, hc, he, dataclassInitCheck_fetcher]

theorem fetchEmitChecked_ok (cfgRepo cfgOrg : String) (now : Nat)
    (since : Option Nat) (oldShas : List (Nat × String)) (acc : FetchAcc)
    (pr : PRInput)
    (h : ¬ ((isNewPRCond since pr.created_at || hasNewCommitsCond oldShas pr) = true
      ∧ pr.greptile_comments ≠ [])) :
    fetchEmitChecked cfgRepo cfgOrg now since oldShas acc pr = .ok acc := by
  by_cases hc : (isNewPRCond since pr.created_at || hasNewCommitsCond oldShas pr) = true
  · have hemp : pr.greptile_comments = [] := by
      by_contra hne
      exact h ⟨hc, hne⟩
    have he : pr.greptile_comments.isEmpty = true := by
      simp [hemp]
    simp [fetchEmitChecked, hc, he]
  · simp only [Bool.not_eq_true] at hc
    simp [fetchEmitChecked, hc]

theorem fetchStep_of_no_emit (cfgRepo cfgOrg : String) (now : Nat)
    (since : Option Nat) (oldShas : List (Nat × String)) (acc : FetchAcc)
    (pr : PRInput)
    (h : ¬ ((isNewPRCond since pr.created_at || hasNewCommitsCond oldShas pr) = true
      ∧ pr.greptile_comments ≠ [])) :
    fetchStep cfgRepo cfgOrg now since oldShas acc pr =
      { acc with
        shas := dset pr.number pr.head_sha acc.shas
        latest := match acc.latest with
          | none => some pr.number
          | some m => some (max m pr.number) } := by
  by_cases hc : (isNewPRCond since pr.created_at || hasNewCommitsCond oldShas pr) = true
  · have hemp : pr.greptile_comments = [] := by
      by_contra hne
      exact h ⟨hc, hne⟩
    have he : pr.greptile_comments.isEmpty = true := by
      simp [hemp]
    simp [fetchStep, hc, he]
  · simp only [Bool.not_eq_true] at hc
    simp [fetchStep, hc]

theorem fetchTryChecked_ok_of_no_emit (cfgRepo cfgOrg : String) (now : Nat)
    (since : Option Nat) (oldShas : List (Nat × String)) :
    ∀ (l : List PRInput) (acc : FetchAcc),
    (∀ pr ∈ l, ¬ ((isNewPRCond since pr.created_at || hasNewCommitsCond oldShas pr) = true
      ∧ pr.greptile_comments ≠ [])) →
    fetchTryChecked cfgRepo cfgOrg now since oldShas l acc =
      .ok (l.foldl (fetchStep cfgRepo cfgOrg now since oldShas) acc) := by
  intro l
  induction l with
  | nil => intro acc _; rfl
  | cons pr rest ih =>
    intro acc h
    have hpr := h pr (List.mem_cons_self _ _)
    have hrest : ∀ pr2 ∈ rest, ¬ ((isNewPRCond since pr2.created_at ||
        hasNewCommitsCond oldShas pr2) = true ∧ pr2.greptile_comments ≠ []) :=
      fun pr2 hm => h pr2 (List.mem_cons_of_mem _ hm)
    simp only [fetchTryChecked,
      fetchEmitChecked_ok cfgRepo cfgOrg now since oldShas acc pr hpr]
    rw [ih _ hrest, List.foldl_cons,
      fetchStep_of_no_emit cfgRepo cfgOrg now since oldShas acc pr hpr]

theorem fetchTryChecked_error_of_emit (cfgRepo cfgOrg : String) (now : Nat)
    (since : Option Nat) (oldShas : List (Nat × String)) :
    ∀ (l : List PRInput) (acc : FetchAcc),
    (∃ pr ∈ l, (isNewPRCond since pr.created_at || hasNewCommitsCond oldShas pr) = true
      ∧ pr.greptile_comments ≠ []) →
    ∃ acc2, fetchTryChecked cfgRepo cfgOrg now since oldShas l acc = .error acc2 ∧
      acc2.results = acc.results := by
  intro l
  induction l with
  | nil => rintro acc ⟨pr, hm, -⟩; exact absurd hm (List.not_mem_nil pr)
  | cons pr rest ih =>
    rintro acc ⟨pr0, hm0, hc0, hne0⟩
    by_cases hp : (isNewPRCond since pr.created_at || hasNewCommitsCond oldShas pr) = true
      ∧ pr.greptile_comments ≠ []
    · refine ⟨acc, ?_, rfl⟩
      simp only [fetchTryChecked,
        fetchEmitChecked_error cfgRepo cfgOrg now since oldShas acc pr hp.1 hp.2]
    · have hm0r : pr0 ∈ rest := by
        rcases List.mem_cons.mp hm0 with he | he
        · exact absurd (he ▸ ⟨hc0, hne0⟩) hp
        · exact he
      simp only [fetchTryChecked,
        fetchEmitChecked_ok cfgRepo cfgOrg now since oldShas acc pr hp]
      obtain ⟨acc2, herr, hres⟩ := ih
        { acc with
          shas := dset pr.number pr.head_sha acc.shas
          latest := match acc.latest with
            | none => some pr.number
            | some m => some (max m pr.number) }
        ⟨pr0, hm0r, hc0, hne0⟩
      exact ⟨acc2, herr, hres⟩

/-- C1 (amended).  For every harvest with a prior watermark over pull
requests with distinct numbers, the selection rule is as claimed — a
pull request is selected iff its creation time is at or after
`last_checked` or its recorded head commit differs from the current one,
and the trigger variable is computed with `new_pr` taking precedence
(`new_commits` only when the creation-time test fails) — but no result
is ever emitted: the construction passes the keywords `pr_updated_at`
and `trigger_type`, which the dataclass does not declare, so any
selected pull request with Greptile comments raises `TypeError` into
the repository-level handler, and the harvest returns the empty result
list with the error watermark (prior fields preserved, error count
incremented, the changed head commit NOT recorded).  Only when no
selected pull request yields a comment does the run complete, with the
watermark advanced, every walked head commit recorded — and an empty
result list all the same. -/
theorem C1_amended (cfgRepo cfgOrg : String) (now : Nat) (st : RepoState)
    (prs : List PRInput) (hnd : (prs.map PRInput.number).Nodup) :
    ("pr_updated_at" ∈ fetcherResultKwargs ∧
      "pr_updated_at" ∉ prWithGreptileCommentsFields ∧
      "trigger_type" ∈ fetcherResultKwargs ∧
      "trigger_type" ∉ prWithGreptileCommentsFields) ∧
    ((∀ pr ∈ prs, ¬ needsProcessing st pr ∨ pr.greptile_comments = []) →
      (fetch_with_dataclass_check cfgRepo cfgOrg now (some st) prs).1 = [] ∧
      (fetch_with_dataclass_check cfgRepo cfgOrg now (some st) prs).2.last_checked = now ∧
      (fetch_with_dataclass_check cfgRepo cfgOrg now (some st) prs).2.error_count = 0 ∧
      (∀ pr ∈ prs, dget pr.number
        ((fetch_with_dataclass_check cfgRepo cfgOrg now (some st) prs).2.pr_shas.getD [])
        = some pr.head_sha)) ∧
    ((∃ pr ∈ prs, needsProcessing st pr ∧ pr.greptile_comments ≠ []) →
      (fetch_with_dataclass_check cfgRepo cfgOrg now (some st) prs).1 = [] ∧
      (fetch_with_dataclass_check cfgRepo cfgOrg now (some st) prs).2 =
        { repo := cfgRepo
          last_checked := st.last_checked
          last_pr_number := st.last_pr_number
          error_count := st.error_count + 1
          pr_shas := some (st.pr_shas.getD []) }) := by
  refine ⟨by decide, ?_, ?_⟩
  · intro h
    have h2 : ∀ pr ∈ prs, ¬ ((isNewPRCond (some st.last_checked) pr.created_at ||
        hasNewCommitsCond (oldShasOf (some st)) pr) = true ∧ pr.greptile_comments ≠ []) := by
      intro pr hm hcon
      rcases h pr hm with hn | hn
      · exact hn ((cond_iff_needsProcessing st pr).mp hcon.1)
      · exact hcon.2 hn
    have hok := fetchTryChecked_ok_of_no_emit cfgRepo cfgOrg now
      (some st.last_checked) (oldShasOf (some st)) prs
      { results := [], latest := st.last_pr_number, shas := [] } h2
    have hfold := fetchFold_results cfgRepo cfgOrg now (some st.last_checked)
      (oldShasOf (some st)) prs
      { results := [], latest := st.last_pr_number, shas := [] }
    have hnil : prs.filterMap (emitOne cfgRepo cfgOrg now (some st.last_checked)
        (oldShasOf (some st))) = [] := by
      rw [List.filterMap_eq_nil_iff]
      intro pr hm
      cases hemit : emitOne cfgRepo cfgOrg now (some st.last_checked)
          (oldShasOf (some st)) pr with
      | none => rfl
      | some res =>
        obtain ⟨hnp, hne, -⟩ :=
          (emitOne_some_iff cfgRepo cfgOrg now st pr res).mp hemit
        rcases h pr hm with hn | hn
        · exact absurd hnp hn
        · exact absurd hn hne
    rw [fetch_with_dataclass_check_eq, hok]
    refine ⟨?_, rfl, rfl, ?_⟩
    · show (prs.foldl (fetchStep cfgRepo cfgOrg now (some st.last_checked)
          (oldShasOf (some st))) { results := [], latest := st.last_pr_number, shas := [] }).results
        = []
      rw [hfold, hnil]
      rfl
    · intro pr hm
      show dget pr.number
        (prs.foldl (fetchStep cfgRepo cfgOrg now (some st.last_checked)
          (oldShasOf (some st))) { results := [], latest := st.last_pr_number, shas := [] }).shas
        = some pr.head_sha
      exact fetchFold_shas_mem cfgRepo cfgOrg now (some st.last_checked)
        (oldShasOf (some st)) prs _ pr hm hnd
  · rintro ⟨pr0, hm0, hnp0, hne0⟩
    have hc0 : (isNewPRCond (some st.last_checked) pr0.created_at ||
        hasNewCommitsCond (oldShasOf (some st)) pr0) = true :=
      (cond_iff_needsProcessing st pr0).mpr hnp0
    obtain ⟨acc2, herr, hres⟩ := fetchTryChecked_error_of_emit cfgRepo cfgOrg now
      (some st.last_checked) (oldShasOf (some st)) prs
      { results := [], latest := st.last_pr_number, shas := [] }
      ⟨pr0, hm0, hc0, hne0⟩
    rw [fetch_with_dataclass_check_eq, herr]
    exact ⟨hres, rfl⟩

/-- C1 witness: at the concrete watermark `stW1` and list `prsW1`
(whose PR 2 is selected and carries a comment), the harvest raises and
returns the empty result list with the error watermark. -/
theorem C1_witness :
    (fetch_with_dataclass_check "acme/widgets" "acme" 20 (some stW1) prsW1).1 = [] ∧
    (fetch_with_dataclass_check "acme/widgets" "acme" 20 (some stW1) prsW1).2 =
      { repo := "acme/widgets"
        last_checked := stW1.last_checked
        last_pr_number := stW1.last_pr_number
        error_count := stW1.error_count + 1
        pr_shas := some (stW1.pr_shas.getD []) } :=
  (C1_amended "acme/widgets" "acme" 20 stW1 prsW1 (by decide)).2.2
    ⟨prW2a, by decide, by decide, by decide⟩

/-- C1 counterexample: PR 1 was created at or after the watermark AND
its recorded head commit changed ("a" to "b") and carries a comment, so
by the claim it should be reprocessed with trigger classification
`new_commits`, emitted, and its new head commit recorded.  Instead the
trigger variable the code computes is `"new_pr"`, and the run returns no
result at all: the construction raises `TypeError`, the error watermark
keeps the old head commit "a" and increments the error count. -/
theorem C1_counterexample :
    needsProcessing stW1 prCx1 ∧
    dget prCx1.number (stW1.pr_shas.getD []) = some "a" ∧
    prCx1.head_sha = "b" ∧ ("a" : String) ≠ "b" ∧
    prCx1.greptile_comments ≠ [] ∧
    triggerOf stW1 prCx1 = "new_pr" ∧ ("new_pr" : String) ≠ "new_commits" ∧
    (fetch_with_dataclass_check "acme/widgets" "acme" 20 (some stW1) prsCx1).1 = [] ∧
    (fetch_with_dataclass_check "acme/widgets" "acme" 20 (some stW1) prsCx1).2.error_count
      = stW1.error_count + 1 ∧
    dget prCx1.number
      ((fetch_with_dataclass_check "acme/widgets" "acme" 20 (some stW1) prsCx1).2.pr_shas.getD [])
      = some "a" := by
  decide

/-- C2: failure semantics of a harvest attempt with a prior watermark.
If the run raises (`interrupted = some k`), the returned watermark keeps
`last_checked` and `last_pr_number` unchanged, increments the
consecutive error count by one, and carries the prior head-commit map
unchanged (a prior `None` map having been normalised to the empty map by
`old_pr_shas = state.pr_shas if state and state.pr_shas else {}`).  If
the run succeeds, `last_checked` becomes the current instant `now`;
under a monotone clock (`s.last_checked ≤ now`) the new `last_checked`
is therefore ≥ the prior value in either case. -/
theorem C2_watermark (cfgRepo cfgOrg : String) (now : Nat) (s : RepoState)
    (prs : List PRInput) (interrupted : Option Nat)
    (hnow : s.last_checked ≤ now) :
    s.last_checked ≤
      (fetch_greptile_comments_for_repo cfgRepo cfgOrg now (some s) prs interrupted).2.last_checked ∧
    (∀ k, interrupted = some k →
      (fetch_greptile_comments_for_repo cfgRepo cfgOrg now (some s) prs interrupted).2.last_checked
          = s.last_checked ∧
      (fetch_greptile_comments_for_repo cfgRepo cfgOrg now (some s) prs interrupted).2.last_pr_number
          = s.last_pr_number ∧
      (fetch_greptile_comments_for_repo cfgRepo cfgOrg now (some s) prs interrupted).2.error_count
          = s.error_count + 1 ∧
      (fetch_greptile_comments_for_repo cfgRepo cfgOrg now (some s) prs interrupted).2.pr_shas
          = some (s.pr_shas.getD [])) ∧
    (interrupted = none →
      (fetch_greptile_comments_for_repo cfgRepo cfgOrg now (some s) prs interrupted).2.last_checked
          = now) := by
  cases interrupted with
  | none =>
    refine ⟨?_, fun k hk => by simp at hk, fun _ => rfl⟩
    exact hnow
  | some k =>
    refine ⟨le_refl _, fun k2 hk => ⟨rfl, rfl, rfl, rfl⟩, fun hc => by simp at hc⟩

/-- C2 witness: concrete evaluation of both branches at `stW1`/`prsW1`. -/
theorem C2_witness :
    (stW1.last_checked ≤
      (fetch_greptile_comments_for_repo "acme/widgets" "acme" 20 (some stW1) prsW1 (some 1)).2.last_checked ∧
    (∀ k, (some 1 : Option Nat) = some k →
      (fetch_greptile_comments_for_repo "acme/widgets" "acme" 20 (some stW1) prsW1 (some 1)).2.last_checked
          = stW1.last_checked ∧
      (fetch_greptile_comments_for_repo "acme/widgets" "acme" 20 (some stW1) prsW1 (some 1)).2.last_pr_number
          = stW1.last_pr_number ∧
      (fetch_greptile_comments_for_repo "acme/widgets" "acme" 20 (some stW1) prsW1 (some 1)).2.error_count
          = stW1.error_count + 1 ∧
      (fetch_greptile_comments_for_repo "acme/widgets" "acme" 20 (some stW1) prsW1 (some 1)).2.pr_shas
          = some (stW1.pr_shas.getD [])) ∧
    ((some 1 : Option Nat) = none →
      (fetch_greptile_comments_for_repo "acme/widgets" "acme" 20 (some stW1) prsW1 (some 1)).2.last_checked
          = 20)) :=
  C2_watermark "acme/widgets" "acme" 20 stW1 prsW1 (some 1) (by decide)

theorem isPrefixOf_take (k : Nat) :
    ∀ (n m : List Char), n.isPrefixOf m = true → (n.take k).isPrefixOf m = true := by
  induction k with
  | zero => intro n m _; simp [List.isPrefixOf]
  | succ k ih =>
    intro n m hp
    cases n with
    | nil => simp [List.isPrefixOf]
    | cons a n2 =>
      cases m with
      | nil => simp [List.isPrefixOf] at hp
      | cons b m2 =>
        rw [List.take_succ_cons]
        rw [List.isPrefixOf_cons₂] at hp ⊢
        rw [Bool.and_eq_true] at hp ⊢
        exact ⟨hp.1, ih n2 m2 hp.2⟩

theorem isSubChars_take (k : Nat) :
    ∀ (n h : List Char), isSubChars n h = true → isSubChars (n.take k) h = true := by
  intro n h
  induction h with
  | nil =>
    intro hs
    simp only [isSubChars, List.isEmpty_iff] at hs ⊢
    simp [hs]
  | cons c rest ih =>
    intro hs
    simp only [isSubChars, Bool.or_eq_true] at hs ⊢
    rcases hs with hp | hsub
    · exact Or.inl (isPrefixOf_take k n (c :: rest) hp)
    · exact Or.inr (ih hsub)

theorem scan_fold_spec (botNames : List String) (t : String) :
    ∀ (cs : List LiveComment) (st : ReplyScan),
    cs.foldl (replyStep botNames t) st =
      { gid := gidAt botNames t st.gid cs
        gurl := match lastMatched botNames t cs with
          | some m => m.html_url
          | none => st.gurl
        replies := st.replies ++ collectReplies botNames t st.gid cs } := by
  intro cs
  induction cs with
  | nil => intro st; simp [gidAt, lastMatched, collectReplies]
  | cons c rest ih =>
    intro st
    rw [List.foldl_cons, ih]
    by_cases hb : is_greptile_user botNames c.user = true
    · by_cases hm : bodiesMatch t c.body = true
      · have hmb : matchedBot botNames t c = true := by
          simp [matchedBot, hb, hm]
        simp only [replyStep, hb, if_true, hm, gidAt, lastMatched, collectReplies]
        cases hrest : lastMatched botNames t rest with
        | none => simp [hmb, hrest]
        | some m => simp [hmb, hrest]
      · have hmb : matchedBot botNames t c = false := by
          simp [matchedBot, hb, hm]
        simp only [replyStep, hb, if_true, hm, if_false, gidAt, lastMatched,
          collectReplies]
        cases hrest : lastMatched botNames t rest with
        | none => simp [hmb, hrest]
        | some m => simp [hmb, hrest]
    · have hmb : matchedBot botNames t c = false := by
        simp [matchedBot, hb]
      by_cases hr : (idTruthy st.gid && (c.in_reply_to_id == st.gid)) = true
      · simp only [replyStep, hb, if_false, hr, if_true, gidAt, lastMatched,
          collectReplies]
        cases hrest : lastMatched botNames t rest with
        | none => simp [hmb, hrest, hb, hr]
        | some m => simp [hmb, hrest, hb, hr]
      · simp only [replyStep, hb, if_false, hr, gidAt, lastMatched,
          collectReplies]
        cases hrest : lastMatched botNames t rest with
        | none => simp [hmb, hrest, hb, hr]
        | some m => simp [hmb, hrest, hb, hr]

theorem gidAt_cons (botNames : List String) (t : String) (g0 : Option Nat)
    (c : LiveComment) (l : List LiveComment) :
    gidAt botNames t g0 (c :: l) =
      gidAt botNames t (if matchedBot botNames t c then c.id else g0) l := by
  simp only [gidAt, lastMatched]
  cases hrest : lastMatched botNames t l with
  | none =>
    by_cases hm : matchedBot botNames t c = true
    · simp [hm]
    · simp only [Bool.not_eq_true] at hm
      simp [hm]
  | some m => simp

theorem collect_mem (botNames : List String) (t : String) :
    ∀ (l1 : List LiveComment) (g0 : Option Nat) (c : LiveComment)
      (l2 : List LiveComment),
    is_greptile_user botNames c.user = false →
    idTruthy (gidAt botNames t g0 l1) = true →
    c.in_reply_to_id = gidAt botNames t g0 l1 →
    c.body ∈ collectReplies botNames t g0 (l1 ++ c :: l2) := by
  intro l1
  induction l1 with
  | nil =>
    intro g0 c l2 hnb htr heq
    simp only [gidAt, lastMatched] at htr heq
    have hcond : (idTruthy g0 && (c.in_reply_to_id == g0)) = true := by
      rw [htr, heq]
      simp
    simp [collectReplies, hnb, hcond]
  | cons d l1t ih =>
    intro g0 c l2 hnb htr heq
    rw [gidAt_cons] at htr heq
    have hmem := ih (if matchedBot botNames t d then d.id else g0) c l2 hnb htr heq
    simp only [List.cons_append, collectReplies]
    by_cases hdb : is_greptile_user botNames d.user = true
    · by_cases hdm : bodiesMatch t d.body = true
      · have : matchedBot botNames t d = true := by simp [matchedBot, hdb, hdm]
        rw [this] at hmem
        simp [hdb, hdm]
        simpa using hmem
      · have : matchedBot botNames t d = false := by simp [matchedBot, hdb, hdm]
        rw [this] at hmem
        simp [hdb, hdm]
        simpa using hmem
    · have : matchedBot botNames t d = false := by simp [matchedBot, hdb]
      rw [this] at hmem
      simp only [Bool.not_eq_true] at hdb
      by_cases hdr : (idTruthy g0 && (d.in_reply_to_id == g0)) = true
      · simp only [hdb, Bool.false_eq_true, if_false, hdr, if_true]
        exact List.mem_cons_of_mem _ hmem
      · simp only [hdb, Bool.false_eq_true, if_false, hdr]
        exact hmem

theorem lastMatched_mem (botNames : List String) (t : String) :
    ∀ (cs : List LiveComment) (m : LiveComment),
    lastMatched botNames t cs = some m →
    m ∈ cs ∧ matchedBot botNames t m = true := by
  intro cs
  induction cs with
  | nil => intro m h; simp [lastMatched] at h
  | cons d rest ih =>
    intro m h
    simp only [lastMatched] at h
    cases h2 : lastMatched botNames t rest with
    | some m2 =>
      rw [h2] at h
      obtain ⟨hmem, hm⟩ := ih m2 h2
      have : m = m2 := by
        simpa using h.symm
      subst this
      exact ⟨List.mem_cons_of_mem _ hmem, hm⟩
    | none =>
      rw [h2] at h
      by_cases he : matchedBot botNames t d = true
      · rw [if_pos he] at h
        have : m = d := by simpa using h.symm
        subst this
        exact ⟨List.mem_cons_self _ _, he⟩
      · rw [if_neg he] at h
        simp at h

theorem lastMatched_exists (botNames : List String) (t : String) :
    ∀ (cs : List LiveComment), (∃ c ∈ cs, matchedBot botNames t c = true) →
    ∃ c0, lastMatched botNames t cs = some c0 ∧ c0 ∈ cs ∧
      matchedBot botNames t c0 = true := by
  intro cs
  induction cs with
  | nil => rintro ⟨c, hc, -⟩; exact absurd hc (List.not_mem_nil c)
  | cons d rest ih =>
    rintro ⟨c, hc, hm⟩
    cases hrest : lastMatched botNames t rest with
    | some m =>
      obtain ⟨hmem, hmm⟩ := lastMatched_mem botNames t rest m hrest
      exact ⟨m, by simp [lastMatched, hrest], List.mem_cons_of_mem _ hmem, hmm⟩
    | none =>
      have hcd : c = d := by
        rcases List.mem_cons.mp hc with h | h
        · exact h
        · exfalso
          obtain ⟨c0, hc0, -, -⟩ := ih ⟨c, h, hm⟩
          rw [hrest] at hc0
          exact Option.noConfusion hc0
      subst hcd
      exact ⟨c, by simp [lastMatched, hrest, hm], List.mem_cons_self _ _, hm⟩

/-- C4 (amended).  `_find_reply_and_url` makes a single forward pass
tracking only the most recently body-matched bot comment: the returned
reply string is the `"\n---\n"`-join of exactly those non-bot comments
whose `in_reply_to_id` equals the truthy id of the most recently matched
bot comment occurring *before* them in the input order (`none` when no
such reply exists); in particular any non-bot comment preceded by a
matched bot comment holding its referenced id is collected.  Replies
that appear before their parent, or that reference an earlier bot
comment after a later one has matched, are not collected. -/
theorem C4_amended (botNames : List String) (cs : List LiveComment)
    (t : String) (ht : t ≠ "") :
    (find_reply_and_url botNames cs t).1 =
      (if (collectReplies botNames t none cs).isEmpty then none
       else some (String.intercalate "\n---\n" (collectReplies botNames t none cs))) ∧
    (∀ (l1 : List LiveComment) (c : LiveComment) (l2 : List LiveComment),
      cs = l1 ++ c :: l2 → is_greptile_user botNames c.user = false →
      idTruthy (gidAt botNames t none l1) = true →
      c.in_reply_to_id = gidAt botNames t none l1 →
      c.body ∈ collectReplies botNames t none cs) := by
  constructor
  · simp only [find_reply_and_url, ht, if_false]
    rw [scan_fold_spec]
    simp
  · intro l1 c l2 hcs hnb htr heq
    rw [hcs]
    exact collect_mem botNames t l1 none c l2 hnb htr heq

/-- C4 witness: with the parent bot comment first, the reply "thanks" is
collected and joined. -/
theorem C4_witness :
    ((find_reply_and_url bnW [botW, replyW] "B").1 =
      (if (collectReplies bnW "B" none [botW, replyW]).isEmpty then none
       else some (String.intercalate "\n---\n" (collectReplies bnW "B" none [botW, replyW]))) ∧
    (∀ (l1 : List LiveComment) (c : LiveComment) (l2 : List LiveComment),
      [botW, replyW] = l1 ++ c :: l2 → is_greptile_user bnW c.user = false →
      idTruthy (gidAt bnW "B" none l1) = true →
      c.in_reply_to_id = gidAt bnW "B" none l1 →
      c.body ∈ collectReplies bnW "B" none [botW, replyW])) :=
  C4_amended bnW [botW, replyW] "B" (by decide)

/-- C4 counterexample: the reply "thanks" points at the matched bot
comment's identifier, yet when it appears *before* its parent the pass
returns no reply (`none`), while the reverse order returns it — refuting
the claim that replies are collected regardless of position. -/
theorem C4_counterexample :
    (find_reply_and_url bnW [replyW, botW] "B").1 = none ∧
    (find_reply_and_url bnW [botW, replyW] "B").1 = some "thanks" ∧
    is_greptile_user bnW replyW.user = false ∧
    is_greptile_user bnW botW.user = true ∧
    bodiesMatch "B" botW.body = true ∧
    replyW.in_reply_to_id = botW.id := by
  refine ⟨by decide, ?_, by decide, by decide, by decide, by decide⟩
  decide

/-- C8: with an empty target body the correlator unconditionally returns
no match (no reply and no URL); and a non-empty target body that occurs
as a substring of a live bot comment's body passes the containment test,
so the scan records a match and returns the html URL of the last
matching bot comment. -/
theorem C8_empty_and_containment (botNames : List String)
    (cs : List LiveComment) (t : String) :
    (find_reply_and_url botNames cs "" = (none, none)) ∧
    (t ≠ "" → ∀ c ∈ cs, is_greptile_user botNames c.user = true →
      pyIn t c.body = true →
      bodiesMatch t c.body = true ∧
      ∃ c0 ∈ cs, is_greptile_user botNames c0.user = true ∧
        bodiesMatch t c0.body = true ∧
        (find_reply_and_url botNames cs t).2 = c0.html_url) := by
  constructor
  · simp [find_reply_and_url]
  · intro ht c hc hbot hsub
    have hmatch : bodiesMatch t c.body = true := by
      simp only [bodiesMatch, Bool.or_eq_true]
      exact Or.inl (isSubChars_take 100 t.data c.body.data hsub)
    refine ⟨hmatch, ?_⟩
    obtain ⟨c0, h1, h2, h3⟩ := lastMatched_exists botNames t cs
      ⟨c, hc, by simp [matchedBot, hbot, hmatch]⟩
    have hbot0 : is_greptile_user botNames c0.user = true := by
      have := h3
      simp only [matchedBot, Bool.and_eq_true] at this
      exact this.1
    have hm0 : bodiesMatch t c0.body = true := by
      have := h3
      simp only [matchedBot, Bool.and_eq_true] at this
      exact this.2
    refine ⟨c0, h2, hbot0, hm0, ?_⟩
    simp only [find_reply_and_url, ht, if_false]
    rw [scan_fold_spec]
    simp [h1]

/-- C8 witness: target "A" inside live bot body "A plus extra text"
produces a match and the bot comment's URL is returned. -/
theorem C8_witness :
    (find_reply_and_url bnW [liveAW] "" = (none, none)) ∧
    (("A" : String) ≠ "" → ∀ c ∈ [liveAW],
      is_greptile_user bnW c.user = true → pyIn "A" c.body = true →
      bodiesMatch "A" c.body = true ∧
      ∃ c0 ∈ [liveAW], is_greptile_user bnW c0.user = true ∧
        bodiesMatch "A" c0.body = true ∧
        (find_reply_and_url bnW [liveAW] "A").2 = c0.html_url) :=
  C8_empty_and_containment bnW [liveAW] "A"

/-- C6: on a `json.JSONDecodeError` the handler returns a negative
verdict fragment (is_great_catch false, null category and severity) whose
justification records the parse error — but the claim that
`evaluate_comment` never raises past this boundary for *any* oracle
outcome is false: the `evaluation.get(...)` reads sit outside the
try/except, so an oracle response that parses as JSON but is not a JSON
object (for example the array `[1, 2]`) raises `AttributeError` out of
`evaluate_comment`. -/
theorem C6_code_bug :
    (∀ (c : GComment) (pr : PRWithGreptileComments) (m : String),
      evaluate_comment c pr (.parseError m) = .ok
        { repo := pr.repo, pr_number := pr.pr_number, pr_title := pr.pr_title
          pr_url := pr.pr_url, comment_id := c.comment_id
          comment_type := c.comment_type, score := c.score
          comment_body := c.comment_body, comment_url := c.comment_url
          reply_body := c.reply_body, created_at := c.created_at
          is_great_catch := PyVal.boolv false, bug_category := PyVal.null
          severity := PyVal.null
          llm_reasoning := PyVal.str ("Parse error: " ++ m) }) ∧
    evaluate_comment gcW prW5 (.parsed (.arr [.intv 1, .intv 2])) =
      .error "AttributeError: object has no attribute get" :=
  ⟨fun _ _ _ => rfl, rfl⟩

/-- C5: a winning batch verdict whose lowered severity is low or medium
is kept exactly when the attached developer reply passes the fixed
positive-acknowledgment vocabulary; any other severity (critical, high)
is kept regardless of the reply.  In particular the reply "lgtm"
contains no vocabulary phrase while "good catch, fixed" does. -/
theorem C5_severity_gate (oracle : PRWithGreptileComments → Option BatchEval)
    (pr : PRWithGreptileComments) (best : CatchRow)
    (hb : evaluate_pr_batch oracle pr = .ok (some best)) :
    (∀ sev, best.severity = some sev →
      (pyLower sev = "low" ∨ pyLower sev = "medium") →
      evaluate_comments oracle [pr] = .ok
        (if _has_positive_reply (best.reply_body.getD "") then [best] else [])) ∧
    (∀ sev, best.severity = some sev → pyLower sev ≠ "low" →
      pyLower sev ≠ "medium" →
      evaluate_comments oracle [pr] = .ok [best]) ∧
    _has_positive_reply "lgtm" = false ∧
    _has_positive_reply "good catch, fixed" = true := by
  have hne : ¬ (valid_comments pr).length = 0 := by
    intro h0
    have hemp : (valid_comments pr).isEmpty = true := by
      simp [List.isEmpty_iff, List.length_eq_zero] at h0 ⊢
      exact h0
    simp only [evaluate_pr_batch, hemp, if_true] at hb
    exact Option.noConfusion (Except.ok.inj hb)
  refine ⟨?_, ?_, by decide, by decide⟩
  · intro sev hsev hlow
    simp only [evaluate_comments, hne, if_false, hb]
    have hgate : acceptGate best =
        .ok (_has_positive_reply (best.reply_body.getD "")) := by
      simp only [acceptGate, hsev]
      rcases hlow with h | h
      · simp [h]
      · simp [h]
    rw [hgate]
    by_cases hr : _has_positive_reply (best.reply_body.getD "") = true
    · simp [hr, evaluate_comments]
    · simp only [Bool.not_eq_true] at hr
      simp [hr, evaluate_comments]
  · intro sev hsev h1 h2
    simp only [evaluate_comments, hne, if_false, hb]
    have hgate : acceptGate best = .ok true := by
      simp [acceptGate, hsev, h1, h2]
    rw [hgate]

/-- C5 witness: medium severity with reply "good catch, fixed" at a
concrete pull request — applying the gate theorem concretely. -/
theorem C5_witness :
    (∀ sev, (mkCatchRow prW5 (bevOf 0 "medium") gcW).severity = some sev →
      (pyLower sev = "low" ∨ pyLower sev = "medium") →
      evaluate_comments (oracleIdx 0 "medium") [prW5] = .ok
        (if _has_positive_reply
            ((mkCatchRow prW5 (bevOf 0 "medium") gcW).reply_body.getD "")
         then [mkCatchRow prW5 (bevOf 0 "medium") gcW] else [])) ∧
    (∀ sev, (mkCatchRow prW5 (bevOf 0 "medium") gcW).severity = some sev →
      pyLower sev ≠ "low" → pyLower sev ≠ "medium" →
      evaluate_comments (oracleIdx 0 "medium") [prW5] =
        .ok [mkCatchRow prW5 (bevOf 0 "medium") gcW]) ∧
    _has_positive_reply "lgtm" = false ∧
    _has_positive_reply "good catch, fixed" = true :=
  C5_severity_gate (oracleIdx 0 "medium") prW5
    (mkCatchRow prW5 (bevOf 0 "medium") gcW) rfl

/-- C10 (amended).  For a parsed batch response reporting a great catch
with integer index `i` over a non-empty filtered comment list of length
`n`: indices `0 ≤ i < n` select the `i`-th filtered comment; `i ≥ n`
yields `None`; but negative indices follow Python subscripting, which
sits outside the guard — `-n ≤ i < 0` selects the `(n+i)`-th comment
(so `-1` returns a verdict instead of `None`), and `i < -n` raises
`IndexError` out of `evaluate_pr_batch`. -/
theorem C10_amended (oracle : PRWithGreptileComments → Option BatchEval)
    (pr : PRWithGreptileComments) (ev : BatchEval) (i : Int)
    (hor : oracle pr = some ev) (hg : ev.has_great_catch = true)
    (hidx : ev.selected_comment_index = some i)
    (hne : valid_comments pr ≠ []) :
    (0 ≤ i → i < ((valid_comments pr).length : Int) → ∃ sel,
      (valid_comments pr).get? i.toNat = some sel ∧
      evaluate_pr_batch oracle pr = .ok (some (mkCatchRow pr ev sel))) ∧
    (((valid_comments pr).length : Int) ≤ i →
      evaluate_pr_batch oracle pr = .ok none) ∧
    (i < 0 → -((valid_comments pr).length : Int) ≤ i → ∃ sel,
      (valid_comments pr).get? (((valid_comments pr).length : Int) + i).toNat
        = some sel ∧
      evaluate_pr_batch oracle pr = .ok (some (mkCatchRow pr ev sel))) ∧
    (i < -((valid_comments pr).length : Int) →
      evaluate_pr_batch oracle pr = .error "IndexError") := by
  have hemp : (valid_comments pr).isEmpty = false := by
    simp [List.isEmpty_iff, hne]
  have hred : evaluate_pr_batch oracle pr =
      (if ((valid_comments pr).length : Int) ≤ i then .ok none
       else match pyIndex (valid_comments pr) i with
        | .error e => .error e
        | .ok sel => .ok (some (mkCatchRow pr ev sel))) := by
    simp [evaluate_pr_batch, hemp, hor, hg, hidx]
  refine ⟨?_, ?_, ?_, ?_⟩
  · intro h0 hlt
    have hnle : ¬ ((valid_comments pr).length : Int) ≤ i := not_le.mpr hlt
    have htn : i.toNat < (valid_comments pr).length := by
      omega
    refine ⟨(valid_comments pr).get ⟨i.toNat, htn⟩, List.get?_eq_get htn, ?_⟩
    rw [hred, if_neg hnle]
    simp only [pyIndex, h0, if_true, List.get?_eq_get htn]
  · intro hge
    rw [hred, if_pos hge]
  · intro hneg hge
    have hnle : ¬ ((valid_comments pr).length : Int) ≤ i := by
      omega
    have h0 : ¬ (0 ≤ i) := not_le.mpr hneg
    have hnn : ¬ (((valid_comments pr).length : Int) + i < 0) := by
      omega
    have htn : (((valid_comments pr).length : Int) + i).toNat
        < (valid_comments pr).length := by
      omega
    refine ⟨(valid_comments pr).get ⟨_, htn⟩, List.get?_eq_get htn, ?_⟩
    rw [hred, if_neg hnle]
    simp only [pyIndex, h0, hnn, if_false, List.get?_eq_get htn]
  · intro hlt
    have hnle : ¬ ((valid_comments pr).length : Int) ≤ i := by
      omega
    have h0 : ¬ (0 ≤ i) := by
      omega
    have hnn : (((valid_comments pr).length : Int) + i < 0) := by
      omega
    rw [hred, if_neg hnle]
    simp only [pyIndex, h0, hnn, if_false, if_true]

/-- C10 witness: index 0 over the single-comment pull request selects
that comment; the out-of-range and negative cases are vacuous or follow
Python semantics as the theorem states. -/
theorem C10_witness :
    (0 ≤ (0 : Int) → (0 : Int) < ((valid_comments prW5).length : Int) → ∃ sel,
      (valid_comments prW5).get? (0 : Int).toNat = some sel ∧
      evaluate_pr_batch (oracleIdx 0 "high") prW5 =
        .ok (some (mkCatchRow prW5 (bevOf 0 "high") sel))) ∧
    (((valid_comments prW5).length : Int) ≤ (0 : Int) →
      evaluate_pr_batch (oracleIdx 0 "high") prW5 = .ok none) ∧
    ((0 : Int) < 0 → -((valid_comments prW5).length : Int) ≤ (0 : Int) → ∃ sel,
      (valid_comments prW5).get? (((valid_comments prW5).length : Int) + 0).toNat
        = some sel ∧
      evaluate_pr_batch (oracleIdx 0 "high") prW5 =
        .ok (some (mkCatchRow prW5 (bevOf 0 "high") sel))) ∧
    ((0 : Int) < -((valid_comments prW5).length : Int) →
      evaluate_pr_batch (oracleIdx 0 "high") prW5 = .error "IndexError") :=
  C10_amended (oracleIdx 0 "high") prW5 (bevOf 0 "high") 0 rfl rfl rfl (by decide)

/-- C10 counterexample: over a single surviving comment, the integer
index `-1` is outside the valid 0-based range yet `evaluate_pr_batch`
returns a verdict (Python wraparound selects the last comment) rather
than `None`; and index `-2` raises `IndexError` instead of returning
`None` without raising. -/
theorem C10_counterexample :
    evaluate_pr_batch (oracleIdx (-1) "high") prW5 =
      .ok (some (mkCatchRow prW5 (bevOf (-1) "high") gcW)) ∧
    ((-1 : Int) < 0) ∧
    evaluate_pr_batch (oracleIdx (-2) "high") prW5 = .error "IndexError" :=
  ⟨rfl, by decide, rfl⟩

theorem charsLt_irrefl : ∀ l : List Char, charsLt l l = false := by
  intro l
  induction l with
  | nil => rfl
  | cons a xs ih => simp [charsLt, ih]

theorem charsLt_trans : ∀ (a b c : List Char), charsLt a b = true →
    charsLt b c = true → charsLt a c = true := by
  intro a
  induction a with
  | nil =>
    intro b c hab hbc
    cases c with
    | nil =>
      cases b with
      | nil => simp [charsLt] at hab
      | cons y ys => simp [charsLt] at hbc
    | cons z zs => rfl
  | cons x xs ih =>
    intro b c hab hbc
    cases b with
    | nil => simp [charsLt] at hab
    | cons y ys =>
      cases c with
      | nil => simp [charsLt] at hbc
      | cons z zs =>
        simp only [charsLt] at hab hbc ⊢
        split_ifs at hab with h1 h2
        · split_ifs at hbc with h3 h4
          · have hx : x.toNat < z.toNat := by omega
            simp [hx]
          · have hx : x.toNat < z.toNat := by omega
            simp [hx]
        · split_ifs at hbc with h3 h4
          · have hx : x.toNat < z.toNat := by omega
            simp [hx]
          · have hnz : ¬ x.toNat < z.toNat := by omega
            have hzx : ¬ z.toNat < x.toNat := by omega
            rw [if_neg hnz, if_neg hzx]
            exact ih ys zs hab hbc

theorem charsLt_connex : ∀ (a b : List Char), charsLt a b = false →
    charsLt b a = true ∨ a = b := by
  intro a
  induction a with
  | nil =>
    intro b hab
    cases b with
    | nil => exact Or.inr rfl
    | cons y ys => simp [charsLt] at hab
  | cons x xs ih =>
    intro b hab
    cases b with
    | nil => exact Or.inl rfl
    | cons y ys =>
      simp only [charsLt] at hab ⊢
      split_ifs at hab with h1 h2
      · left
        rw [if_pos h2]
      · rcases ih ys hab with h | h
        · left
          rw [if_neg h2, if_neg h1]
          exact h
        · right
          have htn : x.toNat = y.toNat := by omega
          have hxy : x = y := Char.eq_of_val_eq (UInt32.ext htn)
          rw [hxy, h]

theorem pyStrLt_irrefl (s : String) : pyStrLt s s = false :=
  charsLt_irrefl s.data

theorem pyStrLt_trans {a b c : String} (h1 : pyStrLt a b = true)
    (h2 : pyStrLt b c = true) : pyStrLt a c = true :=
  charsLt_trans a.data b.data c.data h1 h2

theorem pyStrLt_connex {a b : String} (h : pyStrLt a b = false) :
    pyStrLt b a = true ∨ a = b := by
  rcases charsLt_connex a.data b.data h with h2 | h2
  · exact Or.inl h2
  · right
    cases a
    cases b
    exact congrArg String.mk h2

theorem pyStrLt_notLt_trans {a b c : String} (h1 : pyStrLt a b = false)
    (h2 : pyStrLt b c = false) : pyStrLt a c = false := by
  by_contra hac
  simp only [Bool.not_eq_false] at hac
  rcases pyStrLt_connex h1 with hba | hba
  · rcases pyStrLt_connex h2 with hcb | hcb
    · have : pyStrLt a b = true := pyStrLt_trans hac hcb
      rw [this] at h1
      exact Bool.noConfusion h1
    · subst hcb
      have : pyStrLt a a = true := pyStrLt_trans hac hba
      rw [pyStrLt_irrefl] at this
      exact Bool.noConfusion this
  · subst hba
    rcases pyStrLt_connex h2 with hcb | hcb
    · have : pyStrLt a a = true := pyStrLt_trans hac hcb
      rw [pyStrLt_irrefl] at this
      exact Bool.noConfusion this
    · subst hcb
      rw [pyStrLt_irrefl] at hac
      exact Bool.noConfusion hac

theorem keepLatest_fold_spec : ∀ (l : List Row) (cur : Option Row) (m : Row),
    l.foldl keepLatest cur = some m →
    (m ∈ l ∨ cur = some m) ∧
    (∀ r ∈ l, pyStrLt m.evaluated_at r.evaluated_at = false) ∧
    (∀ c, cur = some c → pyStrLt m.evaluated_at c.evaluated_at = false) := by
  intro l
  induction l with
  | nil =>
    intro cur m h
    refine ⟨Or.inr h, by simp, ?_⟩
    intro c hc
    rw [hc] at h
    have : c = m := by simpa using h
    rw [this, pyStrLt_irrefl]
  | cons r rest ih =>
    intro cur m h
    rw [List.foldl_cons] at h
    obtain ⟨hmem, hrest, hcur2⟩ := ih (keepLatest cur r) m h
    have hnr : pyStrLt m.evaluated_at r.evaluated_at = false := by
      cases cur with
      | none => exact hcur2 r rfl
      | some ex =>
        simp only [keepLatest] at hcur2
        by_cases hlt : pyStrLt ex.evaluated_at r.evaluated_at = true
        · rw [if_pos hlt] at hcur2
          exact hcur2 r rfl
        · rw [if_neg hlt] at hcur2
          have hme := hcur2 ex rfl
          have hltf : pyStrLt ex.evaluated_at r.evaluated_at = false := by
            simpa using hlt
          exact pyStrLt_notLt_trans hme hltf
    refine ⟨?_, ?_, ?_⟩
    · rcases hmem with h2 | h2
      · exact Or.inl (List.mem_cons_of_mem _ h2)
      · cases cur with
        | none =>
          have : r = m := by simpa [keepLatest] using h2
          exact Or.inl (this ▸ List.mem_cons_self _ _)
        | some ex =>
          simp only [keepLatest] at h2
          by_cases hlt : pyStrLt ex.evaluated_at r.evaluated_at = true
          · rw [if_pos hlt] at h2
            have : r = m := by simpa using h2
            exact Or.inl (this ▸ List.mem_cons_self _ _)
          · rw [if_neg hlt] at h2
            exact Or.inr h2
    · intro r2 hr2
      rcases List.mem_cons.mp hr2 with h2 | h2
      · rw [h2]
        exact hnr
      · exact hrest r2 h2
    · intro c hc
      subst hc
      by_cases hlt : pyStrLt c.evaluated_at r.evaluated_at = true
      · have hk : keepLatest (some c) r = some r := by
          simp only [keepLatest]
          rw [if_pos hlt]
        have hmk := hcur2 r hk
        by_contra hmc
        simp only [Bool.not_eq_false] at hmc
        have hmr : pyStrLt m.evaluated_at r.evaluated_at = true :=
          pyStrLt_trans hmc hlt
        rw [hmr] at hmk
        exact Bool.noConfusion hmk
      · have hk : keepLatest (some c) r = some c := by
          simp only [keepLatest]
          rw [if_neg hlt]
        exact hcur2 c hk

theorem dedupStep_dget_self (url : String) (hu : url ≠ "") (m : List (String × Row))
    (r : Row) (hr : r.pr_url = url) :
    dget url (dedupStep m r) = keepLatest (dget url m) r := by
  simp only [dedupStep, hr]
  rw [if_neg hu]
  cases hm : dget url m with
  | none =>
    simp only [hm, keepLatest]
    rw [dget_dset_same]
  | some ex =>
    simp only [hm, keepLatest]
    by_cases hlt : pyStrLt ex.evaluated_at r.evaluated_at = true
    · rw [if_pos hlt, if_pos hlt, dget_dset_same]
    · rw [if_neg hlt, if_neg hlt, hm]

theorem dedupStep_dget_other (url : String) (m : List (String × Row))
    (r : Row) (hr : r.pr_url ≠ url) :
    dget url (dedupStep m r) = dget url m := by
  simp only [dedupStep]
  by_cases he : r.pr_url = ""
  · rw [if_pos he]
  · rw [if_neg he]
    cases hm : dget r.pr_url m with
    | none => exact dget_dset_other url r.pr_url r hr m
    | some ex =>
      show dget url (if pyStrLt ex.evaluated_at r.evaluated_at = true
        then dset r.pr_url r m else m) = dget url m
      by_cases hlt : pyStrLt ex.evaluated_at r.evaluated_at = true
      · rw [if_pos hlt]
        exact dget_dset_other url r.pr_url r hr m
      · rw [if_neg hlt]

theorem dedup_proj (url : String) (hu : url ≠ "") :
    ∀ (rows : List Row) (m : List (String × Row)),
    dget url (rows.foldl dedupStep m) =
      (rows.filter (fun r => r.pr_url == url)).foldl keepLatest (dget url m) := by
  intro rows
  induction rows with
  | nil => intro m; rfl
  | cons r rest ih =>
    intro m
    rw [List.foldl_cons, List.filter_cons]
    by_cases hr : r.pr_url = url
    · rw [if_pos (by simp [hr]), List.foldl_cons, ih,
        dedupStep_dget_self url hu m r hr]
    · rw [if_neg (by simp [hr]), ih, dedupStep_dget_other url m r hr]

/-- C7 (amended).  Deduplication keeps, for each non-empty URL, the
result of folding that URL's rows (in input order) through "replace
only when strictly more recent": hence the kept row is one of that
URL's rows, no row of the URL has a strictly greater `evaluated_at`
string, and on equal `evaluated_at` strings the *earlier* row in input
order wins — a later row replaces the kept one only when its instant is
strictly greater under string comparison. -/
theorem C7_dedup (rows : List Row) (url : String) (hu : url ≠ "") :
    (dget url (dedup_by_pr_url rows) =
      (rows.filter (fun r => r.pr_url == url)).foldl keepLatest none) ∧
    (∀ m, (rows.filter (fun r => r.pr_url == url)).foldl keepLatest none = some m →
      m ∈ rows.filter (fun r => r.pr_url == url) ∧
      ∀ r ∈ rows.filter (fun r => r.pr_url == url),
        pyStrLt m.evaluated_at r.evaluated_at = false) ∧
    (∀ r1 r2 : Row, r1.pr_url = url → r2.pr_url = url →
      r1.evaluated_at = r2.evaluated_at →
      dget url (dedup_by_pr_url [r1, r2]) = some r1) := by
  refine ⟨?_, ?_, ?_⟩
  · have h := dedup_proj url hu rows []
    simpa [dedup_by_pr_url] using h
  · intro m hm
    obtain ⟨hmem, hmax, -⟩ := keepLatest_fold_spec _ none m hm
    refine ⟨?_, hmax⟩
    rcases hmem with h | h
    · exact h
    · exact Option.noConfusion h
  · intro r1 r2 h1 h2 heq
    have e2 : dget url (dedup_by_pr_url [r1, r2]) =
        keepLatest (dget url (dedupStep [] r1)) r2 := by
      unfold dedup_by_pr_url
      rw [List.foldl_cons, List.foldl_cons, List.foldl_nil]
      exact dedupStep_dget_self url hu _ r2 h2
    have e1 : dget url (dedupStep ([] : List (String × Row)) r1) =
        keepLatest none r1 := dedupStep_dget_self url hu [] r1 h1
    rw [e2, e1]
    simp only [keepLatest]
    rw [heq, pyStrLt_irrefl]
    simp

/-- C7 witness: concrete two-row input for the dedup characterisation. -/
theorem C7_witness :
    (dget "u" (dedup_by_pr_url [rowTieA, rowW]) =
      ([rowTieA, rowW].filter (fun r => r.pr_url == "u")).foldl keepLatest none) ∧
    (∀ m, ([rowTieA, rowW].filter (fun r => r.pr_url == "u")).foldl keepLatest none
        = some m →
      m ∈ [rowTieA, rowW].filter (fun r => r.pr_url == "u") ∧
      ∀ r ∈ [rowTieA, rowW].filter (fun r => r.pr_url == "u"),
        pyStrLt m.evaluated_at r.evaluated_at = false) ∧
    (∀ r1 r2 : Row, r1.pr_url = "u" → r2.pr_url = "u" →
      r1.evaluated_at = r2.evaluated_at →
      dget "u" (dedup_by_pr_url [r1, r2]) = some r1) :=
  C7_dedup [rowTieA, rowW] "u" (by decide)

/-- C7 counterexample: two rows for URL "u" with equal `evaluated_at`
strings — deduplication keeps the *first* row, not the later one, so
last-write-wins on ties is refuted. -/
theorem C7_counterexample :
    dget "u" (dedup_by_pr_url [rowTieA, rowTieB]) = some rowTieA ∧
    rowTieA.evaluated_at = rowTieB.evaluated_at ∧
    rowTieA ≠ rowTieB := by
  refine ⟨by decide, by decide, by decide⟩

theorem mem_append_singleton_other {url u : String} (h : u ≠ url)
    (rem : List String) : url ∈ rem ++ [u] ↔ url ∈ rem := by
  constructor
  · intro hx
    rcases List.mem_append.mp hx with h2 | h2
    · exact h2
    · exact absurd (List.mem_singleton.mp h2).symm h
  · intro hx
    exact List.mem_append.mpr (Or.inl hx)

theorem reevalStep_cases (env : SyncEnv) (now : String) (acc : ReevalAcc)
    (u : String) :
    (dget u acc.map = none ∧ reevalStep env now acc u = acc) ∨
    (∃ row, dget u acc.map = some row ∧ evictCond env u row = true ∧
      reevalStep env now acc u = { acc with remove := acc.remove ++ [u] }) ∨
    (∃ row res, dget u acc.map = some row ∧ evictCond env u row = false ∧
      env.oracle row.repo row.pr_title u
        (comment_text_of (live_comments env u)) = some res ∧
      res.is_great_catch = true ∧
      reevalStep env now acc u =
        { acc with map := dset u (reevalUpdatedRow now row res) acc.map }) := by
  cases hm : dget u acc.map with
  | none =>
    left
    exact ⟨rfl, by simp [reevalStep, hm]⟩
  | some row =>
    right
    by_cases hc : (live_comments env u).isEmpty = true
    · left
      exact ⟨row, rfl, by simp [evictCond, hc], by simp [reevalStep, hm, hc]⟩
    · cases horc : env.oracle row.repo row.pr_title u
        (comment_text_of (live_comments env u)) with
      | none =>
        left
        exact ⟨row, rfl, by simp [evictCond, hc, horc],
          by simp [reevalStep, hm, hc, horc]⟩
      | some res =>
        by_cases hg : res.is_great_catch = true
        · right
          exact ⟨row, res, rfl, by simp [evictCond, hc, horc, hg], horc, hg,
            by simp [reevalStep, hm, hc, horc, hg]⟩
        · left
          exact ⟨row, rfl, by simp [evictCond, hc, horc, hg],
            by simp [reevalStep, hm, hc, horc, hg]⟩

theorem reevalStep_other (env : SyncEnv) (now : String) (acc : ReevalAcc)
    (u url : String) (h : u ≠ url) :
    dget url (reevalStep env now acc u).map = dget url acc.map ∧
    (url ∈ (reevalStep env now acc u).remove ↔ url ∈ acc.remove) := by
  rcases reevalStep_cases env now acc u with ⟨-, he⟩ | ⟨row, -, -, he⟩ |
    ⟨row, res, -, -, -, -, he⟩
  · rw [he]
    exact ⟨rfl, Iff.rfl⟩
  · rw [he]
    exact ⟨rfl, mem_append_singleton_other h acc.remove⟩
  · rw [he]
    exact ⟨dget_dset_other url u _ h acc.map, Iff.rfl⟩

theorem reevalFold_other (env : SyncEnv) (now : String) :
    ∀ (urls : List String) (acc : ReevalAcc) (url : String), url ∉ urls →
    dget url (urls.foldl (reevalStep env now) acc).map = dget url acc.map ∧
    (url ∈ (urls.foldl (reevalStep env now) acc).remove ↔ url ∈ acc.remove) := by
  intro urls
  induction urls with
  | nil => intro acc url _; exact ⟨rfl, Iff.rfl⟩
  | cons u rest ih =>
    intro acc url hn
    simp only [List.mem_cons, not_or] at hn
    rw [List.foldl_cons]
    obtain ⟨h1, h2⟩ := ih (reevalStep env now acc u) url hn.2
    obtain ⟨h3, h4⟩ := reevalStep_other env now acc u url (fun he => hn.1 he.symm)
    exact ⟨h1.trans h3, h2.trans h4⟩

theorem reevalStep_self (env : SyncEnv) (now : String) (acc : ReevalAcc)
    (url : String) (row : Row) (hrow : dget url acc.map = some row) :
    (url ∈ (reevalStep env now acc url).remove ↔
      (url ∈ acc.remove ∨ evictCond env url row = true)) ∧
    (dget url (reevalStep env now acc url).map).isSome = true := by
  rcases reevalStep_cases env now acc url with ⟨hm, he⟩ | ⟨row2, hm, hev, he⟩ |
    ⟨row2, res, hm, hev, -, -, he⟩
  · rw [hrow] at hm
    exact Option.noConfusion hm
  · have hr2 : row2 = row := by
      rw [hrow] at hm
      exact (Option.some.inj hm).symm
    subst hr2
    rw [he]
    constructor
    · rw [hev]
      simp
    · simp only [hrow]
      rfl
  · have hr2 : row2 = row := by
      rw [hrow] at hm
      exact (Option.some.inj hm).symm
    subst hr2
    rw [he]
    constructor
    · rw [hev]
      simp
    · rw [dget_dset_same]
      rfl

theorem reevalFold_self (env : SyncEnv) (now : String) :
    ∀ (urls : List String) (acc : ReevalAcc) (url : String) (row : Row),
    urls.Nodup → url ∈ urls → dget url acc.map = some row →
    ((url ∈ (urls.foldl (reevalStep env now) acc).remove ↔
       (url ∈ acc.remove ∨ evictCond env url row = true)) ∧
     (dget url (urls.foldl (reevalStep env now) acc).map).isSome = true) := by
  intro urls
  induction urls with
  | nil => intro acc url row _ hu; exact absurd hu (List.not_mem_nil url)
  | cons u rest ih =>
    intro acc url row hnd hu hrow
    simp only [List.nodup_cons] at hnd
    rw [List.foldl_cons]
    rcases List.mem_cons.mp hu with he | he
    · subst he
      obtain ⟨h1, h2⟩ := reevalStep_self env now acc url row hrow
      obtain ⟨h3, h4⟩ := reevalFold_other env now rest
        (reevalStep env now acc url) url hnd.1
      refine ⟨h4.trans h1, ?_⟩
      rw [h3]
      exact h2
    · obtain ⟨h3, h4⟩ := reevalStep_other env now acc u url
        (fun hequ => hnd.1 (hequ ▸ he))
      have hrow2 : dget url (reevalStep env now acc u).map = some row :=
        h3.trans hrow
      obtain ⟨h1, h2⟩ := ih (reevalStep env now acc u) url row hnd.2 he hrow2
      refine ⟨h1.trans ?_, h2⟩
      rw [h4]

theorem dget_filter_remove (url : String) (rem : List String) :
    ∀ m : List (String × Row),
    dget url (m.filter (fun kv => !(rem.contains kv.1))) =
      if url ∈ rem then none else dget url m := by
  intro m
  induction m with
  | nil =>
    by_cases hm : url ∈ rem
    · simp [dget, hm]
    · simp [dget, hm]
  | cons kv rest ih =>
    obtain ⟨k, v⟩ := kv
    rw [List.filter_cons]
    by_cases hk : rem.contains k = true
    · have hkm : k ∈ rem := by
        simpa using hk
      rw [if_neg (by simp [hkm])]
      rw [ih]
      by_cases hku : k = url
      · subst hku
        rw [if_pos hkm]
        simp [dget, hkm]
      · simp only [dget]
        rw [if_neg hku]
    · have hkm : k ∉ rem := by
        simpa using hk
      rw [if_pos (by simp [hkm])]
      by_cases hku : k = url
      · subst hku
        rw [if_neg hkm]
        simp [dget]
      · simp only [dget]
        rw [if_neg hku, if_neg hku, ih]

theorem evictCond_iff (env : SyncEnv) (url : String) (row : Row) :
    evictCond env url row = true ↔
      (live_comments env url = [] ∨
        ¬ ∃ res, env.oracle row.repo row.pr_title url
            (comment_text_of (live_comments env url)) = some res ∧
          res.is_great_catch = true) := by
  unfold evictCond
  by_cases hc : (live_comments env url).isEmpty = true
  · have hce : live_comments env url = [] := by
      simpa using hc
    simp [hc, hce]
  · have hce : ¬ live_comments env url = [] := by
      simpa using hc
    rw [if_neg (by simp [List.isEmpty_iff, hce])]
    cases horc : env.oracle row.repo row.pr_title url
        (comment_text_of (live_comments env url)) with
    | none => simp [hce, horc]
    | some res =>
      by_cases hg : res.is_great_catch = true
      · simp [hce, horc, hg]
      · simp only [Bool.not_eq_true] at hg
        simp [hce, horc, hg]

/-- C3: during reconciliation re-evaluation, a published pull request is
evicted from the map exactly when its live bot-comment fetch comes back
empty, or the re-evaluation oracle fails to return a positive verdict
(a negative verdict, or no parseable verdict at all).  And every row the
sync finally writes to the sink worksheet (clear-then-write) has
pull-request state `open`. -/
theorem C3_eviction_and_open_sink (env : SyncEnv) (now : String) :
    (∀ (pr_urls : List String) (pr_map : List (String × Row)),
      pr_urls.Nodup → ∀ url ∈ pr_urls, ∀ row, dget url pr_map = some row →
      (dget url (_reevaluate_prs env now pr_urls pr_map) = none ↔
        (live_comments env url = [] ∨
          ¬ ∃ res, env.oracle row.repo row.pr_title url
              (comment_text_of (live_comments env url)) = some res ∧
            res.is_great_catch = true))) ∧
    (∀ (all_rows : List Row) (act : Option (List String)) (ws : List Row),
      (refresh_and_sync_open_prs env all_rows act now).sink = some ws →
      ∀ r ∈ ws, r.pr_state = "open") := by
  constructor
  · intro pr_urls pr_map hnd url hu row hrow
    obtain ⟨hrem, hsome⟩ := reevalFold_self env now pr_urls
      { map := pr_map, remove := [] } url row hnd hu hrow
    unfold _reevaluate_prs
    rw [dget_filter_remove]
    rw [← evictCond_iff env url row]
    by_cases hm : url ∈ (pr_urls.foldl (reevalStep env now)
        { map := pr_map, remove := [] }).remove
    · rw [if_pos hm]
      simp only [true_iff]
      rcases hrem.mp hm with h | h
      · exact absurd h (List.not_mem_nil url)
      · exact h
    · rw [if_neg hm]
      constructor
      · intro hnone
        rw [hnone] at hsome
        exact Bool.noConfusion hsome
      · intro hev
        exact absurd (hrem.mpr (Or.inr hev)) hm
  · have hkey : ∀ (rows : List Row) (ws : List Row),
        (sync_outcome_of rows).sink = some ws → ∀ r ∈ ws, r.pr_state = "open" := by
      intro rows ws hws r hr
      simp only [sync_outcome_of] at hws
      split_ifs at hws with hemp
      have hwse : ws = rows.filter (fun r => r.pr_state == "open") :=
        (Option.some.inj hws).symm
      rw [hwse] at hr
      have hmem := (List.mem_filter.mp hr).2
      simpa using hmem
    intro all_rows act ws hsink r hr
    exact hkey _ ws hsink r hr

/-- C3 witness: a re-evaluated URL with one live bot comment and a
positive oracle is not evicted, and the concrete open row is synced. -/
theorem C3_witness :
    ((dget "https://x/pr/1" (_reevaluate_prs envW "t" ["https://x/pr/1"]
        [("https://x/pr/1", rowW)]) = none ↔
      (live_comments envW "https://x/pr/1" = [] ∨
        ¬ ∃ res, envW.oracle rowW.repo rowW.pr_title "https://x/pr/1"
            (comment_text_of (live_comments envW "https://x/pr/1")) = some res ∧
          res.is_great_catch = true)) ∧
    rowW.pr_state = "open") :=
  ⟨(C3_eviction_and_open_sink envW "t").1 ["https://x/pr/1"]
      [("https://x/pr/1", rowW)] (by decide) "https://x/pr/1" (by simp)
      rowW rfl,
   (C3_eviction_and_open_sink envW "t").2 [rowW] none [rowW] rfl rowW (by simp)⟩

/-- C9: when, after deduplication, refresh, re-evaluation and eviction,
no row with open state remains, `refresh_and_sync_open_prs` returns 0
and the sink worksheet is left untouched (no clear, no write); the sink
is touched exactly when at least one open row exists, and then receives
precisely the open rows of the rewritten CSV, returning their count.
The updated CSV record itself is always rewritten. -/
theorem C9_no_open_rows_frame (env : SyncEnv) (all_rows : List Row)
    (act : Option (List String)) (now : String) :
    ((refresh_and_sync_open_prs env all_rows act now).csvRows.filter
        (fun r => r.pr_state == "open") = [] →
      (refresh_and_sync_open_prs env all_rows act now).ret = 0 ∧
      (refresh_and_sync_open_prs env all_rows act now).sink = none) ∧
    ((refresh_and_sync_open_prs env all_rows act now).sink = none ↔
      (refresh_and_sync_open_prs env all_rows act now).csvRows.filter
        (fun r => r.pr_state == "open") = []) ∧
    (∀ ws, (refresh_and_sync_open_prs env all_rows act now).sink = some ws →
      ws = (refresh_and_sync_open_prs env all_rows act now).csvRows.filter
        (fun r => r.pr_state == "open") ∧
      (refresh_and_sync_open_prs env all_rows act now).ret = ws.length) := by
  have key : ∀ rows : List Row,
      ((sync_outcome_of rows).csvRows.filter (fun r => r.pr_state == "open") = [] →
        (sync_outcome_of rows).ret = 0 ∧ (sync_outcome_of rows).sink = none) ∧
      ((sync_outcome_of rows).sink = none ↔
        (sync_outcome_of rows).csvRows.filter (fun r => r.pr_state == "open") = []) ∧
      (∀ ws, (sync_outcome_of rows).sink = some ws →
        ws = (sync_outcome_of rows).csvRows.filter (fun r => r.pr_state == "open") ∧
        (sync_outcome_of rows).ret = ws.length) := by
    intro rows
    simp only [sync_outcome_of]
    by_cases hemp : (rows.filter (fun r => r.pr_state == "open")).isEmpty = true
    · rw [if_pos hemp, if_pos hemp]
      have hnil : rows.filter (fun r => r.pr_state == "open") = [] := by
        simpa using hemp
      exact ⟨fun _ => ⟨rfl, rfl⟩, by simp [hnil], by simp⟩
    · rw [if_neg hemp, if_neg hemp]
      have hnnil : rows.filter (fun r => r.pr_state == "open") ≠ [] := by
        simpa using hemp
      refine ⟨fun hc => absurd hc hnnil, by simp [hnnil], ?_⟩
      intro ws hws
      exact ⟨(Option.some.inj hws).symm, by rw [(Option.some.inj hws)]⟩
  exact key ((refresh_and_sync_open_prs env all_rows act now).csvRows)

/-- C9 witness: with a single closed row no open row remains, so the run
returns 0 and the sink is untouched. -/
theorem C9_witness :
    (refresh_and_sync_open_prs envW [rowClosedW] none "t").ret = 0 ∧
    (refresh_and_sync_open_prs envW [rowClosedW] none "t").sink = none :=
  (C9_no_open_rows_frame envW [rowClosedW] none "t").1 (by decide)

end LiveFeed
